import Mathlib

/-!
Verification development for the two torchtune single-device recipes:
`recipes/knowledge_distillation_single_device.py` (class `KDRecipeSingleDevice`)
and `recipes/lora_dpo_single_device.py` (class `LoRADPORecipeSingleDevice`).

The Python recipes are shallowly embedded: the recipe-state bookkeeping
(`__init__`, `_update_recipe_state`, the schedule computation in `setup`,
`save_checkpoint`) becomes pure functions on explicit state records, and the
training loops (`train`) become structurally recursive functions over lists of
microbatches that return the final state together with a trace of events
(processed microbatches, optimizer steps with the values they log and the
gradient they apply, and checkpoint emissions).  Scalar tensor values (losses,
gradients) are modelled as rationals; token counts and step counters as
naturals.  Collaborator effects outside the recipes (metric sink, checkpoint
sink, profiler, timers) are either recorded as trace events or dropped when no
claim depends on them.  `clip_grad_norm` is `None` in the modelled
configuration, so the optional gradient-clipping step is omitted.
-/

namespace Torchtune

/-- Warnings emitted by `_update_recipe_state` via `warnings.warn`; one
constructor per distinct warning site in the source. -/
inductive ResumeWarning where
  | seedMismatch
  | maxStepsMismatch
  | totalEpochsMismatch
deriving DecidableEq, Repr

/-- The public recipe-state attributes set in `__init__` of both recipes
(`self.seed`, `self.epochs_run`, `self.total_epochs`,
`self.max_steps_per_epoch`, `self.global_step`), plus the process-wide RNG
modelled as the last seed value passed to `training.set_seed`. -/
structure RecipeCore where
  seed : Nat
  epochsRun : Nat
  totalEpochs : Nat
  maxStepsPerEpoch : Option Nat
  globalStep : Nat
  rngLastSeeded : Nat
deriving DecidableEq, Repr

/-- The recipe-state keys read from a loaded checkpoint dict
(`training.EPOCHS_KEY`, `training.STEPS_KEY`, `training.SEED_KEY`,
`training.MAX_STEPS_KEY`, `training.TOTAL_EPOCHS_KEY`). -/
structure CkptState where
  epochsRun : Nat
  steps : Nat
  seed : Nat
  maxStepsPerEpoch : Option Nat
  totalEpochs : Nat
deriving DecidableEq, Repr

/-- The `TrainingProgress` snapshot packaged by `save_checkpoint` (the
`dataloader_state_dict` cursor is opaque and omitted). -/
structure TrainingProgress where
  seed : Nat
  epochsRun : Nat
  totalEpochs : Nat
  maxStepsPerEpoch : Option Nat
deriving DecidableEq, Repr

/-- Constructor fragment shared by both recipes: `training.set_seed` is called
with the config seed (seeding the process RNG and returning the seed), and the
counters start at zero:
`self.seed = training.set_seed(seed=cfg.seed, ...)`, `self.epochs_run = 0`,
`self.total_epochs = cfg.epochs`,
`self.max_steps_per_epoch = cfg.max_steps_per_epoch`, `self.global_step = 0`. -/
def initRecipeState (cfgSeed cfgEpochs : Nat) (cfgMaxSteps : Option Nat) : RecipeCore :=
  { seed := cfgSeed
    epochsRun := 0
    totalEpochs := cfgEpochs
    maxStepsPerEpoch := cfgMaxSteps
    globalStep := 0
    rngLastSeeded := cfgSeed }

/-- `KDRecipeSingleDevice._update_recipe_state` (lines 161-200): assigns
`epochs_run` and `global_step` from the checkpoint; on seed mismatch warns and
takes the checkpoint seed; on `max_steps_per_epoch` mismatch warns and takes
the checkpoint value; on `total_epochs` mismatch warns but keeps the config
value. -/
def updateRecipeStateKD (s : RecipeCore) (ck : CkptState) :
    RecipeCore × List ResumeWarning :=
  let s1 : RecipeCore := { s with epochsRun := ck.epochsRun, globalStep := ck.steps }
  let p2 : RecipeCore × List ResumeWarning :=
    if s1.seed ≠ ck.seed then
      ({ s1 with seed := ck.seed }, [ResumeWarning.seedMismatch])
    else (s1, [])
  let p3 : RecipeCore × List ResumeWarning :=
    if p2.1.maxStepsPerEpoch ≠ ck.maxStepsPerEpoch then
      ({ p2.1 with maxStepsPerEpoch := ck.maxStepsPerEpoch },
        p2.2 ++ [ResumeWarning.maxStepsMismatch])
    else p2
  if p3.1.totalEpochs ≠ ck.totalEpochs then
    (p3.1, p3.2 ++ [ResumeWarning.totalEpochsMismatch])
  else p3

/-- `LoRADPORecipeSingleDevice._update_recipe_state` (lines 149-187): same as
the KD recipe except that there is no `self.global_step = ckpt_dict[...]`
assignment — only `epochs_run` is read back, `global_step` is untouched. -/
def updateRecipeStateDPO (s : RecipeCore) (ck : CkptState) :
    RecipeCore × List ResumeWarning :=
  let s1 : RecipeCore := { s with epochsRun := ck.epochsRun }
  let p2 : RecipeCore × List ResumeWarning :=
    if s1.seed ≠ ck.seed then
      ({ s1 with seed := ck.seed }, [ResumeWarning.seedMismatch])
    else (s1, [])
  let p3 : RecipeCore × List ResumeWarning :=
    if p2.1.maxStepsPerEpoch ≠ ck.maxStepsPerEpoch then
      ({ p2.1 with maxStepsPerEpoch := ck.maxStepsPerEpoch },
        p2.2 ++ [ResumeWarning.maxStepsMismatch])
    else p2
  if p3.1.totalEpochs ≠ ck.totalEpochs then
    (p3.1, p3.2 ++ [ResumeWarning.totalEpochsMismatch])
  else p3

/-- Schedule computation in `KDRecipeSingleDevice.setup` (lines 313-321):
`self._steps_per_epoch = len(self._dataloader) // self._gradient_accumulation_steps`,
then if `max_steps_per_epoch` is set and smaller, it overrides
`_steps_per_epoch` and `global_step` is recomputed as
`epochs_run * _steps_per_epoch`.  Returns `(stepsPerEpoch, globalStep)`. -/
def computeScheduleKD (dataloaderLen gradAccumSteps : Nat)
    (maxStepsPerEpoch : Option Nat) (epochsRun globalStep : Nat) : Nat × Nat :=
  let stepsPerEpoch := dataloaderLen / gradAccumSteps
  match maxStepsPerEpoch with
  | some m =>
      if m < stepsPerEpoch then (m, epochsRun * m) else (stepsPerEpoch, globalStep)
  | none => (stepsPerEpoch, globalStep)

/-- Schedule computation in `LoRADPORecipeSingleDevice.setup` (lines 266-274);
textually identical to the KD recipe's. -/
def computeScheduleDPO (dataloaderLen gradAccumSteps : Nat)
    (maxStepsPerEpoch : Option Nat) (epochsRun globalStep : Nat) : Nat × Nat :=
  let stepsPerEpoch := dataloaderLen / gradAccumSteps
  match maxStepsPerEpoch with
  | some m =>
      if m < stepsPerEpoch then (m, epochsRun * m) else (stepsPerEpoch, globalStep)
  | none => (stepsPerEpoch, globalStep)

/-- Checkpoint directory naming kind chosen in `setup`: tagged by epoch when
`save_every_n_steps` is unset, by step otherwise. -/
inductive CkptTag where
  | epoch
  | step
deriving DecidableEq, Repr

/-- Checkpoint cadence resolution in `setup` (KD lines 323-327, DPO lines
276-280): if `self.save_every_n_steps is None` it becomes
`self._steps_per_epoch` with epoch-tagged checkpoint directories, else the
configured value with step-tagged directories. -/
def resolveSaveCadence (saveEveryCfg : Option Nat) (stepsPerEpoch : Nat) :
    Nat × CkptTag :=
  match saveEveryCfg with
  | none => (stepsPerEpoch, CkptTag.epoch)
  | some n => (n, CkptTag.step)

/-- The epoch value recorded in the `TrainingProgress` snapshot by
`KDRecipeSingleDevice.save_checkpoint` (lines 567-570):
`training_progress_epoch = epoch`, incremented by one when
`self.global_step % self._steps_per_epoch == 0`. -/
def kdProgressEpoch (globalStep stepsPerEpoch epoch : Nat) : Nat :=
  if globalStep % stepsPerEpoch = 0 then epoch + 1 else epoch

/-- `KDRecipeSingleDevice.save_checkpoint` (lines 567-588), restricted to the
`TrainingProgress` payload it packages. -/
def kdSaveCheckpoint (s : RecipeCore) (stepsPerEpoch epoch : Nat) : TrainingProgress :=
  { seed := s.seed
    epochsRun := kdProgressEpoch s.globalStep stepsPerEpoch epoch
    totalEpochs := s.totalEpochs
    maxStepsPerEpoch := s.maxStepsPerEpoch }

/-- `LoRADPORecipeSingleDevice.save_checkpoint` (lines 439-455), restricted to
the `TrainingProgress` payload: it packages `self.epochs_run` directly, with no
epoch-boundary adjustment (the `epoch` argument is not used in the payload). -/
def dpoSaveCheckpoint (s : RecipeCore) (_epoch : Nat) : TrainingProgress :=
  { seed := s.seed
    epochsRun := s.epochsRun
    totalEpochs := s.totalEpochs
    maxStepsPerEpoch := s.maxStepsPerEpoch }

/-- Output record of `LoRADPORecipeSingleDevice.concatenated_forward`, i.e.
`torchtune.rlhf.ChosenRejectedOutputs`.  The batch axis is a `List`; `β` is
the per-sequence logits block and `α` the per-sequence log-probability. -/
structure ChosenRejectedOutputs (α β : Type) where
  chosenLogps : List α
  rejectedLogps : List α
  chosenLogits : List β
  rejectedLogits : List β
deriving DecidableEq, Repr

/-- `LoRADPORecipeSingleDevice.concatenated_forward` (lines 457-490):
`len_chosen = concatenated_input_ids.shape[0] // 2`; one forward pass over the
whole concatenated batch; `rlhf.get_batch_log_probs` over logits and labels;
then both log-probs and logits are split at `len_chosen`
(`[:len_chosen]` / `[len_chosen:]` become `take` / `drop`).  The model and the
batch log-probability computation are abstract collaborators. -/
def concatenatedForward {σ α β : Type} (model : List σ → List β)
    (getBatchLogProbs : List β → List σ → List α)
    (concatenatedInputIds concatenatedLabels : List σ) :
    ChosenRejectedOutputs α β :=
  let lenChosen := concatenatedInputIds.length / 2
  let allLogits := model concatenatedInputIds
  let allLogProbs := getBatchLogProbs allLogits concatenatedLabels
  { chosenLogps := allLogProbs.take lenChosen
    rejectedLogps := allLogProbs.drop lenChosen
    chosenLogits := allLogits.take lenChosen
    rejectedLogits := allLogits.drop lenChosen }

/-- The two forward passes of one DPO microbatch (`train`, lines 517-537): the
policy pass runs `concatenated_forward` with the adapters active, then the
reference pass runs the very same model over the identical batch inside
`torch.no_grad()` and `disable_adapter(self._model)`.  The model is abstracted
as a function of the adapter-enabled flag. -/
def dpoForwardPair {σ α β : Type} (modelWithAdapters : Bool → List σ → List β)
    (getBatchLogProbs : List β → List σ → List α)
    (inputIds labels : List σ) :
    ChosenRejectedOutputs α β × ChosenRejectedOutputs α β :=
  let policy := concatenatedForward (modelWithAdapters true) getBatchLogProbs inputIds labels
  let ref := concatenatedForward (modelWithAdapters false) getBatchLogProbs inputIds labels
  (policy, ref)

/-- `reward_accuracies = (chosen_rewards > rejected_rewards).float()`
(`train`, line 544): elementwise indicator of the chosen reward exceeding the
rejected one. -/
def rewardAccuracies (chosenRewards rejectedRewards : List ℚ) : List ℚ :=
  List.zipWith (fun c r => if r < c then (1 : ℚ) else 0) chosenRewards rejectedRewards

/-- Tensor `.mean()` on a 1-d tensor of rationals. -/
def listMean (xs : List ℚ) : ℚ :=
  xs.sum / (xs.length : ℚ)

/-- One microbatch of the KD training loop, reduced to the scalar quantities
the loop bookkeeping consumes: `numTokens` is
`(batch["labels"] != ignore_index).sum()`, `classLoss` / `kdLoss` are the two
scalar losses returned by `_loss_step`, and `gradContrib` is the gradient
increment deposited by `current_loss.backward()` for this microbatch. -/
structure KDMicrobatch where
  numTokens : Nat
  classLoss : ℚ
  kdLoss : ℚ
  gradContrib : ℚ
deriving DecidableEq, Repr

/-- Mutable state threaded through `KDRecipeSingleDevice.train`:
`running_class_loss`, `running_kd_loss`, `num_tokens`, the accumulated
gradient buffer, `self.global_step` and `self.epochs_run`. -/
structure KDState where
  runningClassLoss : ℚ
  runningKdLoss : ℚ
  numTokens : Nat
  grads : ℚ
  globalStep : Nat
  epochsRun : Nat
deriving DecidableEq, Repr

/-- Trace events of the KD training loop: a processed microbatch, an optimizer
step (with the gradient it applies after `training.scale_grads`, the per-step
loss values it computes for display/logging, the new `global_step` and whether
the metric sink was invoked), an intermediate checkpoint, a final checkpoint.
Checkpoint events carry the epoch argument and the `TrainingProgress` epoch. -/
inductive KDEvent where
  | micro : KDEvent
  | optStep (appliedGrad classLossLogged kdLossLogged lossLogged : ℚ)
      (step : Nat) (metricLogged : Bool) : KDEvent
  | interCkpt (epoch progressEpoch : Nat) : KDEvent
  | finalCkpt (epoch progressEpoch : Nat) : KDEvent
deriving DecidableEq, Repr

/-- The per-microbatch accumulation statements of the KD loop body (lines
651-666): `num_tokens += current_num_tokens`,
`running_class_loss += class_loss * current_num_tokens`,
`running_kd_loss += kd_loss * current_num_tokens`, and the gradient deposited
by `current_loss.backward()`. -/
def kdAccum (s : KDState) (b : KDMicrobatch) : KDState :=
  { s with
    runningClassLoss := s.runningClassLoss + b.classLoss * (b.numTokens : ℚ)
    runningKdLoss := s.runningKdLoss + b.kdLoss * (b.numTokens : ℚ)
    numTokens := s.numTokens + b.numTokens
    grads := s.grads + b.gradContrib }

/-- One iteration of the microbatch loop in `KDRecipeSingleDevice.train`
(lines 651-724): accumulate, and when `(idx + 1) % gradient_accumulation_steps
== 0` rescale gradients by `1 / num_tokens`, step the optimizer, zero the
gradients, increment `global_step`, compute the per-step loss values
(`running_*_loss / num_tokens` and their `kd_ratio` blend), log metrics every
`log_every_n_steps`, save an intermediate checkpoint when `global_step %
save_every_n_steps == 0` and the epoch is not the last, and reset the running
statistics. -/
def kdBody (A : Nat) (kdRatio : ℚ) (saveEvery logEvery totalEpochs stepsPerEpoch : Nat)
    (currEpoch idx : Nat) (b : KDMicrobatch) (s : KDState) : KDState × List KDEvent :=
  let acc := kdAccum s b
  if (idx + 1) % A = 0 then
    let appliedGrad := acc.grads * (1 / (acc.numTokens : ℚ))
    let step := s.globalStep + 1
    let classLog := acc.runningClassLoss / (acc.numTokens : ℚ)
    let kdLog := acc.runningKdLoss / (acc.numTokens : ℚ)
    let lossLog := (1 - kdRatio) * classLog + kdRatio * kdLog
    ({ runningClassLoss := 0, runningKdLoss := 0, numTokens := 0, grads := 0,
       globalStep := step, epochsRun := s.epochsRun },
      [KDEvent.micro,
       KDEvent.optStep appliedGrad classLog kdLog lossLog step
         (decide (step % logEvery = 0))] ++
      (if step % saveEvery = 0 ∧ currEpoch ≠ totalEpochs - 1 then
        [KDEvent.interCkpt currEpoch (kdProgressEpoch step stepsPerEpoch currEpoch)]
      else []))
  else (acc, [KDEvent.micro])

/-- The early-exit test at the bottom of the KD microbatch loop (lines
743-747): `(idx + 1) // gradient_accumulation_steps == max_steps_per_epoch`
(comparison with `None` is false). -/
def kdShouldBreak (A : Nat) (maxSteps : Option Nat) (idx : Nat) : Bool :=
  match maxSteps with
  | some m => (idx + 1) / A == m
  | none => false

/-- The microbatch loop of one KD epoch (`for idx, batch in
enumerate(self._dataloader)` with the early-exit check after the body). -/
def kdEpoch (A : Nat) (kdRatio : ℚ)
    (saveEvery logEvery totalEpochs stepsPerEpoch : Nat) (maxSteps : Option Nat)
    (currEpoch : Nat) : Nat → KDState → List KDMicrobatch → KDState × List KDEvent
  | _, s, [] => (s, [])
  | idx, s, b :: bs =>
    let p := kdBody A kdRatio saveEvery logEvery totalEpochs stepsPerEpoch currEpoch idx b s
    if kdShouldBreak A maxSteps idx then p
    else
      let rest := kdEpoch A kdRatio saveEvery logEvery totalEpochs stepsPerEpoch
        maxSteps currEpoch (idx + 1) p.1 bs
      (rest.1, p.2 ++ rest.2)

/-- The epoch loop of `KDRecipeSingleDevice.train` (lines 638-749): one
`kdEpoch` per epoch index, followed by `self.epochs_run += 1`.  The running
loss/token accumulators are not touched at the epoch boundary.  `data e` is
the sequence of microbatches the dataloader yields in epoch `e`. -/
def kdEpochs (A : Nat) (kdRatio : ℚ)
    (saveEvery logEvery totalEpochs stepsPerEpoch : Nat) (maxSteps : Option Nat)
    (data : Nat → List KDMicrobatch) :
    List Nat → KDState → KDState × List KDEvent
  | [], s => (s, [])
  | e :: es, s =>
    let p := kdEpoch A kdRatio saveEvery logEvery totalEpochs stepsPerEpoch
      maxSteps e 0 s (data e)
    let rest := kdEpochs A kdRatio saveEvery logEvery totalEpochs stepsPerEpoch
      maxSteps data es { p.1 with epochsRun := p.1.epochsRun + 1 }
    (rest.1, p.2 ++ rest.2)

/-- `KDRecipeSingleDevice.train` (lines 625-754): run the epochs
`range(self.epochs_run, self.total_epochs)` and afterwards unconditionally
save a final full-tensors checkpoint with `epoch = curr_epoch`
(the last epoch index, `total_epochs - 1`). -/
def kdTrain (A : Nat) (kdRatio : ℚ)
    (saveEvery logEvery totalEpochs stepsPerEpoch : Nat) (maxSteps : Option Nat)
    (data : Nat → List KDMicrobatch) (s0 : KDState) : KDState × List KDEvent :=
  let p := kdEpochs A kdRatio saveEvery logEvery totalEpochs stepsPerEpoch maxSteps
    data (List.range' s0.epochsRun (totalEpochs - s0.epochsRun)) s0
  (p.1, p.2 ++
    [KDEvent.finalCkpt (totalEpochs - 1)
      (kdProgressEpoch p.1.globalStep stepsPerEpoch (totalEpochs - 1))])

/-- Recognizer for microbatch-processed events. -/
def KDEvent.isMicro : KDEvent → Bool
  | .micro => true
  | _ => false

/-- Recognizer for optimizer-step events. -/
def KDEvent.isOptStep : KDEvent → Bool
  | .optStep _ _ _ _ _ _ => true
  | _ => false

/-- Recognizer for intermediate-checkpoint events. -/
def KDEvent.isInterCkpt : KDEvent → Bool
  | .interCkpt _ _ => true
  | _ => false

/-- Recognizer for final-checkpoint events. -/
def KDEvent.isFinalCkpt : KDEvent → Bool
  | .finalCkpt _ _ => true
  | _ => false

/-- The `(applied gradient, logged class loss, logged kd loss)` triple of an
optimizer-step event. -/
def KDEvent.stepData : KDEvent → Option (ℚ × ℚ × ℚ)
  | .optStep g c k _ _ _ => some (g, c, k)
  | _ => none

/-- All optimizer-step data triples occurring in a KD trace, in order. -/
def kdStepLogs (evs : List KDEvent) : List (ℚ × ℚ × ℚ) :=
  evs.filterMap KDEvent.stepData

/-- Total non-ignored-label token count of a window of KD microbatches. -/
def kdSumTokens (w : List KDMicrobatch) : Nat :=
  (w.map (fun b => b.numTokens)).sum

/-- Token-weighted class-loss total of a window of KD microbatches. -/
def kdWeightedClass (w : List KDMicrobatch) : ℚ :=
  (w.map (fun b => b.classLoss * (b.numTokens : ℚ))).sum

/-- Token-weighted kd-loss total of a window of KD microbatches. -/
def kdWeightedKd (w : List KDMicrobatch) : ℚ :=
  (w.map (fun b => b.kdLoss * (b.numTokens : ℚ))).sum

/-- Total gradient contribution of a window of KD microbatches. -/
def kdSumGrads (w : List KDMicrobatch) : ℚ :=
  (w.map (fun b => b.gradContrib)).sum

/-- Left fold of the per-microbatch accumulation over a window. -/
def kdFold (s : KDState) (w : List KDMicrobatch) : KDState :=
  w.foldl kdAccum s

/-- One microbatch of the DPO training loop, reduced to the scalar quantities
the loop bookkeeping consumes: `numel` is `batch[0].numel()`, `lossMean` is
the value of `loss.mean()` before the division by the accumulation factor,
`gradContrib` is the gradient that `loss.backward()` would deposit for the
undivided loss, and the reward lists feed the logged metrics. -/
structure DPOMicrobatch where
  numel : Nat
  lossMean : ℚ
  gradContrib : ℚ
  chosenRewards : List ℚ
  rejectedRewards : List ℚ
deriving DecidableEq, Repr

/-- Mutable state threaded through `LoRADPORecipeSingleDevice.train`:
`running_loss`, `num_tokens`, the accumulated gradient buffer,
`self.global_step` and `self.epochs_run`. -/
structure DPOState where
  runningLoss : ℚ
  numTokens : Nat
  grads : ℚ
  globalStep : Nat
  epochsRun : Nat
deriving DecidableEq, Repr

/-- Trace events of the DPO training loop, mirroring `KDEvent`.  The optimizer
step records the gradient it applies, the logged `running_loss` value, the
logged reward accuracy of the window's last microbatch, the new `global_step`
and whether the metric sink was invoked. -/
inductive DPOEvent where
  | micro : DPOEvent
  | optStep (appliedGrad lossLogged rewardAccLogged : ℚ)
      (step : Nat) (metricLogged : Bool) : DPOEvent
  | interCkpt (epoch progressEpoch : Nat) : DPOEvent
  | finalCkpt (epoch progressEpoch : Nat) : DPOEvent
deriving DecidableEq, Repr

/-- The per-microbatch accumulation statements of the DPO loop body (lines
516-548): `num_tokens += batch[0].numel()`, then
`loss = loss / gradient_accumulation_steps`, `running_loss += loss`, and the
gradient deposited by `loss.backward()` on the pre-divided loss. -/
def dpoAccum (A : Nat) (s : DPOState) (b : DPOMicrobatch) : DPOState :=
  { s with
    runningLoss := s.runningLoss + b.lossMean / (A : ℚ)
    numTokens := s.numTokens + b.numel
    grads := s.grads + b.gradContrib / (A : ℚ) }

/-- One iteration of the microbatch loop in `LoRADPORecipeSingleDevice.train`
(lines 516-607) after the early-exit check: accumulate, and when `(idx + 1) %
gradient_accumulation_steps == 0` step the optimizer on the accumulated
gradients (no rescaling — the loss was pre-divided), zero the gradients,
increment `global_step`, log `running_loss` and the reward metrics of the
current microbatch every `log_every_n_steps`, save an intermediate checkpoint
when `global_step % save_every_n_steps == 0` and the epoch is not the last,
and reset `running_loss` and `num_tokens`. -/
def dpoBody (A : Nat) (saveEvery logEvery totalEpochs : Nat)
    (currEpoch idx : Nat) (b : DPOMicrobatch) (s : DPOState) :
    DPOState × List DPOEvent :=
  let acc := dpoAccum A s b
  if (idx + 1) % A = 0 then
    let step := s.globalStep + 1
    ({ runningLoss := 0, numTokens := 0, grads := 0,
       globalStep := step, epochsRun := s.epochsRun },
      [DPOEvent.micro,
       DPOEvent.optStep acc.grads acc.runningLoss
         (listMean (rewardAccuracies b.chosenRewards b.rejectedRewards)) step
         (decide (step % logEvery = 0))] ++
      (if step % saveEvery = 0 ∧ currEpoch ≠ totalEpochs - 1 then
        [DPOEvent.interCkpt currEpoch s.epochsRun]
      else []))
  else (acc, [DPOEvent.micro])

/-- The early-exit test at the top of the DPO microbatch loop (lines 509-514):
`max_steps_per_epoch is not None and (idx // gradient_accumulation_steps) ==
max_steps_per_epoch`, checked before the batch is processed. -/
def dpoShouldBreak (A : Nat) (maxSteps : Option Nat) (idx : Nat) : Bool :=
  match maxSteps with
  | some m => idx / A == m
  | none => false

/-- The microbatch loop of one DPO epoch. -/
def dpoEpoch (A : Nat) (saveEvery logEvery totalEpochs : Nat)
    (maxSteps : Option Nat) (currEpoch : Nat) :
    Nat → DPOState → List DPOMicrobatch → DPOState × List DPOEvent
  | _, s, [] => (s, [])
  | idx, s, b :: bs =>
    if dpoShouldBreak A maxSteps idx then (s, [])
    else
      let p := dpoBody A saveEvery logEvery totalEpochs currEpoch idx b s
      let rest := dpoEpoch A saveEvery logEvery totalEpochs maxSteps currEpoch
        (idx + 1) p.1 bs
      (rest.1, p.2 ++ rest.2)

/-- The epoch loop of `LoRADPORecipeSingleDevice.train` (lines 503-609): one
`dpoEpoch` per epoch index, followed by `self.epochs_run += 1`.  The running
loss/token accumulators are not touched at the epoch boundary. -/
def dpoEpochs (A : Nat) (saveEvery logEvery totalEpochs : Nat)
    (maxSteps : Option Nat) (data : Nat → List DPOMicrobatch) :
    List Nat → DPOState → DPOState × List DPOEvent
  | [], s => (s, [])
  | e :: es, s =>
    let p := dpoEpoch A saveEvery logEvery totalEpochs maxSteps e 0 s (data e)
    let rest := dpoEpochs A saveEvery logEvery totalEpochs maxSteps data es
      { p.1 with epochsRun := p.1.epochsRun + 1 }
    (rest.1, p.2 ++ rest.2)

/-- `LoRADPORecipeSingleDevice.train` (lines 492-612): run the epochs
`range(self.epochs_run, self.total_epochs)` and afterwards unconditionally
save a final full-tensors checkpoint; the packaged progress epoch is the final
`self.epochs_run`. -/
def dpoTrain (A : Nat) (saveEvery logEvery totalEpochs : Nat)
    (maxSteps : Option Nat) (data : Nat → List DPOMicrobatch) (s0 : DPOState) :
    DPOState × List DPOEvent :=
  let p := dpoEpochs A saveEvery logEvery totalEpochs maxSteps data
    (List.range' s0.epochsRun (totalEpochs - s0.epochsRun)) s0
  (p.1, p.2 ++ [DPOEvent.finalCkpt (totalEpochs - 1) p.1.epochsRun])

/-- Recognizer for microbatch-processed events. -/
def DPOEvent.isMicro : DPOEvent → Bool
  | .micro => true
  | _ => false

/-- Recognizer for optimizer-step events. -/
def DPOEvent.isOptStep : DPOEvent → Bool
  | .optStep _ _ _ _ _ => true
  | _ => false

/-- The `(applied gradient, logged loss)` pair of an optimizer-step event. -/
def DPOEvent.stepData : DPOEvent → Option (ℚ × ℚ)
  | .optStep g l _ _ _ => some (g, l)
  | _ => none

/-- All optimizer-step data pairs occurring in a DPO trace, in order. -/
def dpoStepLogs (evs : List DPOEvent) : List (ℚ × ℚ) :=
  evs.filterMap DPOEvent.stepData

/-- Total `numel` count of a window of DPO microbatches. -/
def dpoSumNumel (w : List DPOMicrobatch) : Nat :=
  (w.map (fun b => b.numel)).sum

/-- Total accumulated (pre-divided) loss of a window of DPO microbatches. -/
def dpoWindowLoss (A : Nat) (w : List DPOMicrobatch) : ℚ :=
  (w.map (fun b => b.lossMean / (A : ℚ))).sum

/-- Total accumulated (pre-divided) gradient of a window of DPO microbatches. -/
def dpoWindowGrads (A : Nat) (w : List DPOMicrobatch) : ℚ :=
  (w.map (fun b => b.gradContrib / (A : ℚ))).sum

/-- Left fold of the per-microbatch accumulation over a window. -/
def dpoFold (A : Nat) (s : DPOState) (w : List DPOMicrobatch) : DPOState :=
  w.foldl (dpoAccum A) s

/-- Zero-initialized KD loop state, as at entry of `train`. -/
def kdZeroState : KDState :=
  { runningClassLoss := 0, runningKdLoss := 0, numTokens := 0, grads := 0,
    globalStep := 0, epochsRun := 0 }

/-- Zero-initialized DPO loop state, as at entry of `train`. -/
def dpoZeroState : DPOState :=
  { runningLoss := 0, numTokens := 0, grads := 0, globalStep := 0, epochsRun := 0 }

/-- Concrete KD microbatch: 3 unmasked tokens, class loss 2, kd loss 4,
gradient contribution 6. -/
def kdMB1 : KDMicrobatch :=
  { numTokens := 3, classLoss := 2, kdLoss := 4, gradContrib := 6 }

/-- Concrete KD microbatch: 1 unmasked token, class loss 10, kd loss 0,
gradient contribution 2. -/
def kdMB2 : KDMicrobatch :=
  { numTokens := 1, classLoss := 10, kdLoss := 0, gradContrib := 2 }

/-- Concrete DPO microbatch. -/
def dpoMB1 : DPOMicrobatch :=
  { numel := 8, lossMean := 3, gradContrib := 5, chosenRewards := [2, 1],
    rejectedRewards := [0, 3] }

/-- Concrete DPO microbatch. -/
def dpoMB2 : DPOMicrobatch :=
  { numel := 6, lossMean := 1, gradContrib := 7, chosenRewards := [1],
    rejectedRewards := [0] }

/-- Concrete two-epoch KD data source: epoch 0 yields three microbatches (one
leftover under `A = 2`), later epochs yield two. -/
def kdDataEx : Nat → List KDMicrobatch := fun e =>
  if e = 0 then [kdMB1, kdMB2, kdMB1] else [kdMB2, kdMB1]

/-- Concrete two-epoch DPO data source mirroring `kdDataEx`. -/
def dpoDataEx : Nat → List DPOMicrobatch := fun e =>
  if e = 0 then [dpoMB1, dpoMB2, dpoMB1] else [dpoMB2, dpoMB1]

/-- The KD state left at the end of epoch 0 of `kdDataEx` under `A = 2`: the
trailing microbatch `kdMB1` is still accumulated. -/
def kdS1Ex : KDState :=
  { runningClassLoss := 6, runningKdLoss := 12, numTokens := 3, grads := 6,
    globalStep := 1, epochsRun := 0 }

/-- The DPO state left at the end of epoch 0 of `dpoDataEx` under `A = 2`: the
trailing microbatch `dpoMB1` is still accumulated (loss and gradient
pre-divided by `A`). -/
def dpoT1Ex : DPOState :=
  { runningLoss := 3 / 2, numTokens := 8, grads := 5 / 2,
    globalStep := 1, epochsRun := 0 }

/-- Concrete recipe state for witnesses: config seed 2, 5 epochs, step cap 10. -/
def resumeStateEx : RecipeCore := initRecipeState 2 5 (some 10)

/-- Concrete checkpoint recipe-state differing from `resumeStateEx` in every
field. -/
def resumeCkptEx : CkptState :=
  { epochsRun := 1, steps := 7, seed := 3, maxStepsPerEpoch := some 4,
    totalEpochs := 9 }

/-- Concrete recipe state sitting exactly on an epoch boundary
(`global_step = 4` with `steps_per_epoch = 4`). -/
def boundaryStateEx : RecipeCore :=
  { seed := 0, epochsRun := 0, totalEpochs := 2, maxStepsPerEpoch := none,
    globalStep := 4, rngLastSeeded := 0 }

/-- C1 (amended).  On resume, both recipes take `epochs_run` from the
checkpoint, take `seed` and `max_steps_per_epoch` from the checkpoint with a
warning on mismatch, and keep the config `total_epochs` with a warning on
mismatch.  `global_step` is taken from the checkpoint in the KD recipe only;
the DPO recipe's `_update_recipe_state` has no such assignment and leaves
`global_step` unchanged. -/
theorem claim_C1_resume_reconciliation (s : RecipeCore) (ck : CkptState)
    (hs : s.seed ≠ ck.seed) (hm : s.maxStepsPerEpoch ≠ ck.maxStepsPerEpoch)
    (ht : s.totalEpochs ≠ ck.totalEpochs) :
    updateRecipeStateKD s ck =
      ({ s with epochsRun := ck.epochsRun, globalStep := ck.steps,
                seed := ck.seed, maxStepsPerEpoch := ck.maxStepsPerEpoch },
       [ResumeWarning.seedMismatch, ResumeWarning.maxStepsMismatch,
        ResumeWarning.totalEpochsMismatch]) ∧
    updateRecipeStateDPO s ck =
      ({ s with epochsRun := ck.epochsRun,
                seed := ck.seed, maxStepsPerEpoch := ck.maxStepsPerEpoch },
       [ResumeWarning.seedMismatch, ResumeWarning.maxStepsMismatch,
        ResumeWarning.totalEpochsMismatch]) := by
  constructor <;>
    simp only [updateRecipeStateKD, updateRecipeStateDPO] <;>
    simp [hs, hm, ht]

/-- C1 counterexample.  The claim asserts that resuming takes `global_step`
from the checkpoint in both recipes; in the DPO recipe it does not: with a
checkpoint recording step 7, the post-resume `global_step` is still 0. -/
theorem claim_C1_counterexample :
    ¬ ((updateRecipeStateDPO resumeStateEx resumeCkptEx).1.globalStep =
        resumeCkptEx.steps) := by decide

/-- C1 witness: the amended reconciliation at a concrete all-fields-differing
config/checkpoint pair. -/
theorem claim_C1_witness :
    resumeStateEx.seed ≠ resumeCkptEx.seed ∧
    resumeStateEx.maxStepsPerEpoch ≠ resumeCkptEx.maxStepsPerEpoch ∧
    resumeStateEx.totalEpochs ≠ resumeCkptEx.totalEpochs ∧
    (updateRecipeStateKD resumeStateEx resumeCkptEx =
      ({ resumeStateEx with
          epochsRun := resumeCkptEx.epochsRun,
          globalStep := resumeCkptEx.steps, seed := resumeCkptEx.seed,
          maxStepsPerEpoch := resumeCkptEx.maxStepsPerEpoch },
       [ResumeWarning.seedMismatch, ResumeWarning.maxStepsMismatch,
        ResumeWarning.totalEpochsMismatch]) ∧
     updateRecipeStateDPO resumeStateEx resumeCkptEx =
      ({ resumeStateEx with
          epochsRun := resumeCkptEx.epochsRun,
          seed := resumeCkptEx.seed,
          maxStepsPerEpoch := resumeCkptEx.maxStepsPerEpoch },
       [ResumeWarning.seedMismatch, ResumeWarning.maxStepsMismatch,
        ResumeWarning.totalEpochsMismatch])) :=
  ⟨by decide, by decide, by decide,
   claim_C1_resume_reconciliation resumeStateEx resumeCkptEx
     (by decide) (by decide) (by decide)⟩

/-- C2.  For every dataloader length `L` and accumulation factor `A > 0`, both
setups compute `steps_per_epoch = L / A` (floor division); and when
`max_steps_per_epoch = M` with `M < L / A`, both set `steps_per_epoch = M` and
recompute `global_step = epochs_run * M`, discarding any previously held step
count `g`. -/
theorem claim_C2_schedule (L A M e g : Nat) (hA : 0 < A) :
    ((computeScheduleKD L A none e g).1 = L / A ∧
     (computeScheduleDPO L A none e g).1 = L / A) ∧
    (M < L / A →
      computeScheduleKD L A (some M) e g = (M, e * M) ∧
      computeScheduleDPO L A (some M) e g = (M, e * M)) := by
  refine ⟨⟨rfl, rfl⟩, fun h => ⟨?_, ?_⟩⟩ <;>
    simp [computeScheduleKD, computeScheduleDPO, h]

/-- C2 witness at `L = 10`, `A = 3`, `M = 2`, `epochs_run = 4`, resumed
`global_step = 99`. -/
theorem claim_C2_schedule_witness :
    0 < 3 ∧
    (((computeScheduleKD 10 3 none 4 99).1 = 10 / 3 ∧
      (computeScheduleDPO 10 3 none 4 99).1 = 10 / 3) ∧
     (2 < 10 / 3 →
       computeScheduleKD 10 3 (some 2) 4 99 = (2, 4 * 2) ∧
       computeScheduleDPO 10 3 (some 2) 4 99 = (2, 4 * 2))) :=
  ⟨by decide, claim_C2_schedule 10 3 2 4 99 (by decide)⟩

/-- C6 (amended).  When packaging a `TrainingProgress` snapshot, the KD
recipe's `save_checkpoint` records the epoch argument incremented by one
exactly when `global_step % steps_per_epoch == 0`, and the unincremented value
otherwise; the DPO recipe's `save_checkpoint` always records the working
`epochs_run` with no epoch-boundary increment. -/
theorem claim_C6_progress_epoch (s : RecipeCore) (stepsPerEpoch epoch : Nat) :
    ((kdSaveCheckpoint s stepsPerEpoch epoch).epochsRun =
      if s.globalStep % stepsPerEpoch = 0 then epoch + 1 else epoch) ∧
    (dpoSaveCheckpoint s epoch).epochsRun = s.epochsRun :=
  ⟨rfl, rfl⟩

/-- C6 counterexample.  At an exact epoch boundary (`global_step = 4`,
`steps_per_epoch = 4`, working epoch count 0) the claim requires the packaged
epoch count to be incremented to 1 in both recipes; the DPO recipe packages
the unincremented 0. -/
theorem claim_C6_counterexample :
    boundaryStateEx.globalStep % 4 = 0 ∧
    ¬ ((dpoSaveCheckpoint boundaryStateEx 0).epochsRun =
        boundaryStateEx.epochsRun + 1) := by decide

/-- C9.  The constructor seeds the process RNG with the config seed; on a
divergent checkpoint seed, `_update_recipe_state` (in both recipes) only
overwrites the recorded `self.seed` attribute: the RNG state is untouched, and
the result differs from the matching-seed run only in the `seed` field. -/
theorem claim_C9_seed_frame (cfgSeed cfgEpochs : Nat) (cfgMaxSteps : Option Nat)
    (s : RecipeCore) (ck : CkptState) :
    (initRecipeState cfgSeed cfgEpochs cfgMaxSteps).rngLastSeeded = cfgSeed ∧
    (updateRecipeStateKD s ck).1.rngLastSeeded = s.rngLastSeeded ∧
    (updateRecipeStateDPO s ck).1.rngLastSeeded = s.rngLastSeeded ∧
    (updateRecipeStateKD s ck).1 =
      { (updateRecipeStateKD s { ck with seed := s.seed }).1 with
        seed := (updateRecipeStateKD s ck).1.seed } ∧
    (updateRecipeStateDPO s ck).1 =
      { (updateRecipeStateDPO s { ck with seed := s.seed }).1 with
        seed := (updateRecipeStateDPO s ck).1.seed } := by
  refine ⟨rfl, ?_, ?_, ?_, ?_⟩ <;>
    · simp only [updateRecipeStateKD, updateRecipeStateDPO]
      by_cases h1 : s.seed = ck.seed <;>
        by_cases h2 : s.maxStepsPerEpoch = ck.maxStepsPerEpoch <;>
          by_cases h3 : s.totalEpochs = ck.totalEpochs <;>
            simp [h1, h2, h3]

/-- Splitting lemma for `concatenated_forward`: when the model acts
per-sequence and the batch log-probability computation acts per
(logits, labels) pair, splitting at half the batch length recovers exactly the
original chosen/rejected grouping. -/
theorem concatenatedForward_split {σ α β : Type} (f : σ → β) (g : β → σ → α)
    (c r cl rl : List σ) (k : Nat) (hc : c.length = k) (hr : r.length = k)
    (hcl : cl.length = k) :
    (concatenatedForward (List.map f) (fun lg lb => List.zipWith g lg lb)
        (c ++ r) (cl ++ rl)).chosenLogits = c.map f ∧
    (concatenatedForward (List.map f) (fun lg lb => List.zipWith g lg lb)
        (c ++ r) (cl ++ rl)).rejectedLogits = r.map f ∧
    (concatenatedForward (List.map f) (fun lg lb => List.zipWith g lg lb)
        (c ++ r) (cl ++ rl)).chosenLogps = List.zipWith g (c.map f) cl ∧
    (concatenatedForward (List.map f) (fun lg lb => List.zipWith g lg lb)
        (c ++ r) (cl ++ rl)).rejectedLogps = List.zipWith g (r.map f) rl := by
  have hlen : (c ++ r).length / 2 = k := by
    simp only [List.length_append, hc, hr]; omega
  have hz : List.zipWith g (List.map f (c ++ r)) (cl ++ rl) =
      List.zipWith g (List.map f c) cl ++ List.zipWith g (List.map f r) rl := by
    rw [List.map_append]
    exact List.zipWith_append g _ _ _ _ (by simp [hc, hcl])
  have hmapc : (List.map f c).length = k := by simp [hc]
  have hzc : (List.zipWith g (List.map f c) cl).length = k := by simp [hc, hcl]
  refine ⟨?_, ?_, ?_, ?_⟩ <;> simp only [concatenatedForward, hlen, hz]
  · rw [List.map_append, ← hmapc, List.take_left]
  · rw [List.map_append, ← hmapc, List.drop_left]
  · rw [← hzc, List.take_left]
  · rw [← hzc, List.drop_left]

/-- C5.  For a concatenated batch of `k` chosen then `k` rejected sequences,
the policy pass of `concatenated_forward` splits log-probs and logits at index
`k` into exactly the chosen and rejected groups; the reference pass runs the
identical concatenated input through the same model with adapters disabled;
and the logged reward accuracy is the mean indicator of
`chosen_reward > rejected_reward`, which is `1/2` for chosen rewards `[2, 1]`
against rejected rewards `[0, 3]`. -/
theorem claim_C5_preference_forward {σ α β : Type} (f : Bool → σ → β)
    (g : β → σ → α) (chosen rejected chosenLabels rejectedLabels : List σ)
    (k : Nat) (hc : chosen.length = k) (hr : rejected.length = k)
    (hcl : chosenLabels.length = k) :
    ((dpoForwardPair (fun ena => List.map (f ena))
        (fun lg lb => List.zipWith g lg lb)
        (chosen ++ rejected) (chosenLabels ++ rejectedLabels)).1.chosenLogits =
          chosen.map (f true) ∧
     (dpoForwardPair (fun ena => List.map (f ena))
        (fun lg lb => List.zipWith g lg lb)
        (chosen ++ rejected) (chosenLabels ++ rejectedLabels)).1.rejectedLogits =
          rejected.map (f true) ∧
     (dpoForwardPair (fun ena => List.map (f ena))
        (fun lg lb => List.zipWith g lg lb)
        (chosen ++ rejected) (chosenLabels ++ rejectedLabels)).1.chosenLogps =
          List.zipWith g (chosen.map (f true)) chosenLabels ∧
     (dpoForwardPair (fun ena => List.map (f ena))
        (fun lg lb => List.zipWith g lg lb)
        (chosen ++ rejected) (chosenLabels ++ rejectedLabels)).1.rejectedLogps =
          List.zipWith g (rejected.map (f true)) rejectedLabels) ∧
    ((dpoForwardPair (fun ena => List.map (f ena))
        (fun lg lb => List.zipWith g lg lb)
        (chosen ++ rejected) (chosenLabels ++ rejectedLabels)).2 =
       concatenatedForward (List.map (f false)) (fun lg lb => List.zipWith g lg lb)
        (chosen ++ rejected) (chosenLabels ++ rejectedLabels) ∧
     (dpoForwardPair (fun ena => List.map (f ena))
        (fun lg lb => List.zipWith g lg lb)
        (chosen ++ rejected) (chosenLabels ++ rejectedLabels)).2.chosenLogits =
          chosen.map (f false) ∧
     (dpoForwardPair (fun ena => List.map (f ena))
        (fun lg lb => List.zipWith g lg lb)
        (chosen ++ rejected) (chosenLabels ++ rejectedLabels)).2.rejectedLogits =
          rejected.map (f false)) ∧
    listMean (rewardAccuracies [2, 1] [0, 3]) = 1 / 2 := by
  have h1 := concatenatedForward_split (f true) g chosen rejected
    chosenLabels rejectedLabels k hc hr hcl
  have h2 := concatenatedForward_split (f false) g chosen rejected
    chosenLabels rejectedLabels k hc hr hcl
  refine ⟨⟨h1.1, h1.2.1, h1.2.2.1, h1.2.2.2⟩, ⟨rfl, h2.1, h2.2.1⟩, ?_⟩
  norm_num [listMean, rewardAccuracies]

/-- C5 witness: a concrete batch with `k = 1`, a per-sequence model that adds
one with adapters disabled, and label-summing log-probabilities. -/
theorem claim_C5_witness :
    ([5] : List Nat).length = 1 ∧ ([7] : List Nat).length = 1 ∧
    ([1] : List Nat).length = 1 ∧
    (((dpoForwardPair
          (fun ena => List.map (fun x => if ena then x * 2 else x + 1))
          (fun lg lb => List.zipWith (fun b s => b + s) lg lb)
          ([5] ++ [7]) ([1] ++ [3])).1.chosenLogits =
            ([5] : List Nat).map (fun x => if true then x * 2 else x + 1) ∧
      (dpoForwardPair
          (fun ena => List.map (fun x => if ena then x * 2 else x + 1))
          (fun lg lb => List.zipWith (fun b s => b + s) lg lb)
          ([5] ++ [7]) ([1] ++ [3])).1.rejectedLogits =
            ([7] : List Nat).map (fun x => if true then x * 2 else x + 1) ∧
      (dpoForwardPair
          (fun ena => List.map (fun x => if ena then x * 2 else x + 1))
          (fun lg lb => List.zipWith (fun b s => b + s) lg lb)
          ([5] ++ [7]) ([1] ++ [3])).1.chosenLogps =
            List.zipWith (fun b s => b + s)
              (([5] : List Nat).map (fun x => if true then x * 2 else x + 1)) [1] ∧
      (dpoForwardPair
          (fun ena => List.map (fun x => if ena then x * 2 else x + 1))
          (fun lg lb => List.zipWith (fun b s => b + s) lg lb)
          ([5] ++ [7]) ([1] ++ [3])).1.rejectedLogps =
            List.zipWith (fun b s => b + s)
              (([7] : List Nat).map (fun x => if true then x * 2 else x + 1)) [3]) ∧
     ((dpoForwardPair
          (fun ena => List.map (fun x => if ena then x * 2 else x + 1))
          (fun lg lb => List.zipWith (fun b s => b + s) lg lb)
          ([5] ++ [7]) ([1] ++ [3])).2 =
        concatenatedForward
          (List.map (fun x => if false then x * 2 else x + 1))
          (fun lg lb => List.zipWith (fun b s => b + s) lg lb)
          ([5] ++ [7]) ([1] ++ [3]) ∧
      (dpoForwardPair
          (fun ena => List.map (fun x => if ena then x * 2 else x + 1))
          (fun lg lb => List.zipWith (fun b s => b + s) lg lb)
          ([5] ++ [7]) ([1] ++ [3])).2.chosenLogits =
            ([5] : List Nat).map (fun x => if false then x * 2 else x + 1) ∧
      (dpoForwardPair
          (fun ena => List.map (fun x => if ena then x * 2 else x + 1))
          (fun lg lb => List.zipWith (fun b s => b + s) lg lb)
          ([5] ++ [7]) ([1] ++ [3])).2.rejectedLogits =
            ([7] : List Nat).map (fun x => if false then x * 2 else x + 1)) ∧
     listMean (rewardAccuracies [2, 1] [0, 3]) = 1 / 2) :=
  ⟨rfl, rfl, rfl,
   claim_C5_preference_forward
     (fun ena x => if ena then x * 2 else x + 1) (fun b s => b + s)
     [5] [7] [1] [3] 1 rfl rfl rfl⟩

/-- C10.  `concatenated_forward` splits at `batch_size // 2` with no parity
check: on an odd-sized concatenated batch of `2k + 1` sequences it silently
produces a chosen group of `k` and a rejected group of `k + 1` sequences —
every sequence is assigned to a group (no error path) and the middle sequence
(index `k`) lands at the head of the rejected group. -/
theorem claim_C10_odd_split {σ α β : Type} (f : σ → β)
    (g : List β → List σ → List α) (ids labels : List σ) (k : Nat)
    (h : ids.length = 2 * k + 1) :
    (concatenatedForward (List.map f) g ids labels).chosenLogits.length = k ∧
    (concatenatedForward (List.map f) g ids labels).rejectedLogits.length = k + 1 ∧
    (concatenatedForward (List.map f) g ids labels).chosenLogits ++
      (concatenatedForward (List.map f) g ids labels).rejectedLogits = ids.map f ∧
    (concatenatedForward (List.map f) g ids labels).rejectedLogits.head? =
      ids[k]?.map f := by
  have hlen : ids.length / 2 = k := by omega
  refine ⟨?_, ?_, ?_, ?_⟩
  · simp only [concatenatedForward, hlen]
    simp [h]
    omega
  · simp only [concatenatedForward, hlen]
    simp [h]
    omega
  · simp only [concatenatedForward, hlen]
    exact List.take_append_drop k (ids.map f)
  · simp only [concatenatedForward, hlen]
    rw [List.head?_drop]
    simp

/-- C10 witness: a concrete odd batch of three sequences; the middle one
(index 1) heads the rejected group. -/
theorem claim_C10_witness :
    ([10, 11, 12] : List Nat).length = 2 * 1 + 1 ∧
    ((concatenatedForward (List.map (fun x => x + 1))
        (fun _ _ => ([] : List Nat)) [10, 11, 12] []).chosenLogits.length = 1 ∧
     (concatenatedForward (List.map (fun x => x + 1))
        (fun _ _ => ([] : List Nat)) [10, 11, 12] []).rejectedLogits.length = 1 + 1 ∧
     (concatenatedForward (List.map (fun x => x + 1))
        (fun _ _ => ([] : List Nat)) [10, 11, 12] []).chosenLogits ++
       (concatenatedForward (List.map (fun x => x + 1))
          (fun _ _ => ([] : List Nat)) [10, 11, 12] []).rejectedLogits =
       ([10, 11, 12] : List Nat).map (fun x => x + 1) ∧
     (concatenatedForward (List.map (fun x => x + 1))
        (fun _ _ => ([] : List Nat)) [10, 11, 12] []).rejectedLogits.head? =
       ([10, 11, 12] : List Nat)[1]?.map (fun x => x + 1)) :=
  ⟨rfl, claim_C10_odd_split (fun x => x + 1) (fun _ _ => ([] : List Nat))
    [10, 11, 12] [] 1 rfl⟩

/-- Unfolding equation of the accumulation fold on a cons cell. -/
theorem kdFold_cons (s : KDState) (b : KDMicrobatch) (bs : List KDMicrobatch) :
    kdFold s (b :: bs) = kdFold (kdAccum s b) bs := rfl

/-- The accumulation fold only touches the four accumulator fields; its effect
is adding the window totals. -/
theorem kdFold_eq (w : List KDMicrobatch) : ∀ s : KDState,
    kdFold s w =
      { runningClassLoss := s.runningClassLoss + kdWeightedClass w
        runningKdLoss := s.runningKdLoss + kdWeightedKd w
        numTokens := s.numTokens + kdSumTokens w
        grads := s.grads + kdSumGrads w
        globalStep := s.globalStep
        epochsRun := s.epochsRun } := by
  induction w with
  | nil =>
    intro s
    simp [kdFold, kdWeightedClass, kdWeightedKd, kdSumTokens, kdSumGrads]
  | cons b bs ih =>
    intro s
    rw [kdFold_cons, ih (kdAccum s b)]
    simp only [kdAccum, kdWeightedClass, kdWeightedKd, kdSumTokens, kdSumGrads,
      List.map_cons, List.sum_cons, KDState.mk.injEq]
    exact ⟨by ring, by ring, by omega, by ring, trivial, trivial⟩

/-- Unfolding equation of the uncapped epoch loop on a cons cell: the break
test compares against `None` and is always false. -/
theorem kdEpoch_cons_none (A : Nat) (kdRatio : ℚ) (se le te sp ce idx : Nat)
    (s : KDState) (b : KDMicrobatch) (bs : List KDMicrobatch) :
    kdEpoch A kdRatio se le te sp none ce idx s (b :: bs) =
      ((kdEpoch A kdRatio se le te sp none ce (idx + 1)
          (kdBody A kdRatio se le te sp ce idx b s).1 bs).1,
       (kdBody A kdRatio se le te sp ce idx b s).2 ++
        (kdEpoch A kdRatio se le te sp none ce (idx + 1)
          (kdBody A kdRatio se le te sp ce idx b s).1 bs).2) := rfl

/-- A run of microbatches none of which closes an accumulation window only
folds the accumulators and emits one micro event each. -/
theorem kdEpoch_no_step (A : Nat) (kdRatio : ℚ) (se le te sp ce : Nat)
    (w : List KDMicrobatch) : ∀ (idx : Nat) (s : KDState),
    (∀ j, j < w.length → (idx + j + 1) % A ≠ 0) →
    kdEpoch A kdRatio se le te sp none ce idx s w =
      (kdFold s w, List.replicate w.length KDEvent.micro) := by
  induction w with
  | nil => intro idx s _; rfl
  | cons b bs ih =>
    intro idx s h
    have h0 : ¬ ((idx + 1) % A = 0) := by
      have := h 0 (by simp)
      simpa using this
    have hrest : ∀ j, j < bs.length → (idx + 1 + j + 1) % A ≠ 0 := by
      intro j hj
      have hx := h (j + 1) (by simpa using Nat.succ_lt_succ hj)
      have e : idx + 1 + j + 1 = idx + (j + 1) + 1 := by omega
      rw [e]
      exact hx
    have hbody : kdBody A kdRatio se le te sp ce idx b s =
        (kdAccum s b, [KDEvent.micro]) := by
      simp [kdBody, h0]
    rw [kdEpoch_cons_none, hbody, ih (idx + 1) (kdAccum s b) hrest]
    simp [kdFold_cons, List.replicate_succ]

/-- Splitting an uncapped epoch run over an appended list. -/
theorem kdEpoch_append (A : Nat) (kdRatio : ℚ) (se le te sp ce : Nat)
    (xs ys : List KDMicrobatch) : ∀ (idx : Nat) (s : KDState),
    kdEpoch A kdRatio se le te sp none ce idx s (xs ++ ys) =
      ((kdEpoch A kdRatio se le te sp none ce (idx + xs.length)
          (kdEpoch A kdRatio se le te sp none ce idx s xs).1 ys).1,
       (kdEpoch A kdRatio se le te sp none ce idx s xs).2 ++
        (kdEpoch A kdRatio se le te sp none ce (idx + xs.length)
          (kdEpoch A kdRatio se le te sp none ce idx s xs).1 ys).2) := by
  induction xs with
  | nil => intro idx s; simp [kdEpoch]
  | cons b bs ih =>
    intro idx s
    rw [List.cons_append, kdEpoch_cons_none, kdEpoch_cons_none, ih (idx + 1)]
    simp only [List.length_cons, List.append_assoc]
    have e : idx + 1 + bs.length = idx + (bs.length + 1) := by omega
    rw [e]

/-- Unfolding equation of the epoch loop on the empty list. -/
theorem kdEpoch_nil (A : Nat) (kdRatio : ℚ) (se le te sp ce idx : Nat)
    (ms : Option Nat) (s : KDState) :
    kdEpoch A kdRatio se le te sp ms ce idx s [] = (s, []) := rfl

/-- Step logs distribute over trace concatenation. -/
theorem kdStepLogs_append (l1 l2 : List KDEvent) :
    kdStepLogs (l1 ++ l2) = kdStepLogs l1 ++ kdStepLogs l2 := by
  simp [kdStepLogs]

/-- Micro events carry no step log. -/
theorem kdStepLogs_replicate_micro (n : Nat) :
    kdStepLogs (List.replicate n KDEvent.micro) = [] := by
  induction n with
  | zero => rfl
  | succ n ih =>
    rw [List.replicate_succ]
    simpa [kdStepLogs, List.filterMap_cons, KDEvent.stepData] using ih

/-- Window-total decomposition over appends. -/
theorem kdSumTokens_append (xs ys : List KDMicrobatch) :
    kdSumTokens (xs ++ ys) = kdSumTokens xs + kdSumTokens ys := by
  simp [kdSumTokens]

/-- Window-total decomposition over appends. -/
theorem kdWeightedClass_append (xs ys : List KDMicrobatch) :
    kdWeightedClass (xs ++ ys) = kdWeightedClass xs + kdWeightedClass ys := by
  simp [kdWeightedClass]

/-- Window-total decomposition over appends. -/
theorem kdWeightedKd_append (xs ys : List KDMicrobatch) :
    kdWeightedKd (xs ++ ys) = kdWeightedKd xs + kdWeightedKd ys := by
  simp [kdWeightedKd]

/-- Window-total decomposition over appends. -/
theorem kdSumGrads_append (xs ys : List KDMicrobatch) :
    kdSumGrads (xs ++ ys) = kdSumGrads xs + kdSumGrads ys := by
  simp [kdSumGrads]

/-- A full accumulation window starting at a window boundary performs exactly
one optimizer step: the final state has all accumulators reset and the step
count bumped, and the single step log divides the accumulated running losses
by the accumulated token count and rescales the accumulated gradients by one
over that same token count. -/
theorem kdEpoch_window (A : Nat) (kdRatio : ℚ) (se le te sp ce idx : Nat)
    (s : KDState) (w : List KDMicrobatch)
    (hA : 0 < A) (hw : w.length = A) (hidx : A ∣ idx) :
    (kdEpoch A kdRatio se le te sp none ce idx s w).1 =
      { runningClassLoss := 0, runningKdLoss := 0, numTokens := 0, grads := 0,
        globalStep := s.globalStep + 1, epochsRun := s.epochsRun } ∧
    kdStepLogs (kdEpoch A kdRatio se le te sp none ce idx s w).2 =
      [((s.grads + kdSumGrads w) * (1 / ((s.numTokens + kdSumTokens w : Nat) : ℚ)),
        (s.runningClassLoss + kdWeightedClass w) /
          ((s.numTokens + kdSumTokens w : Nat) : ℚ),
        (s.runningKdLoss + kdWeightedKd w) /
          ((s.numTokens + kdSumTokens w : Nat) : ℚ))] := by
  have hne : w ≠ [] := by
    intro e
    rw [e] at hw
    simp at hw
    omega
  obtain ⟨ys, b, hw', hys⟩ : ∃ ys b, w = ys ++ [b] ∧ ys.length = A - 1 := by
    refine ⟨w.dropLast, w.getLast hne, (List.dropLast_append_getLast hne).symm, ?_⟩
    simp [hw]
  subst hw'
  have hnostep : ∀ j, j < ys.length → (idx + j + 1) % A ≠ 0 := by
    intro j hj
    obtain ⟨q, rfl⟩ := hidx
    have hjA : j + 1 < A := by omega
    have e1 : A * q + j + 1 = j + 1 + A * q := by omega
    rw [e1, Nat.add_mul_mod_self_left, Nat.mod_eq_of_lt hjA]
    omega
  have hstep : (idx + ys.length + 1) % A = 0 := by
    obtain ⟨q, rfl⟩ := hidx
    have e1 : A * q + ys.length + 1 = A * (q + 1) := by
      rw [Nat.mul_add, Nat.mul_one]
      omega
    rw [e1]
    exact Nat.mul_mod_right A (q + 1)
  rw [kdEpoch_append, kdEpoch_no_step A kdRatio se le te sp ce ys idx s hnostep]
  simp only [kdEpoch_cons_none, kdEpoch_nil]
  rw [kdFold_eq ys s]
  simp only [kdBody, kdAccum, hstep, if_pos, kdStepLogs_append,
    kdStepLogs_replicate_micro, kdSumTokens_append, kdWeightedClass_append,
    kdWeightedKd_append, kdSumGrads_append, kdSumTokens, kdWeightedClass,
    kdWeightedKd, kdSumGrads, List.map_cons, List.sum_cons, List.map_nil,
    List.sum_nil]
  constructor
  · simp
  · by_cases hc : (s.globalStep + 1) % se = 0 ∧ ce ≠ te - 1 <;>
      · simp [hc, kdStepLogs, List.filterMap_cons, KDEvent.stepData]
        refine ⟨?_, ?_, ?_⟩ <;> push_cast <;> ring

/-- C3.  In the KD recipe: the checkpoint cadence defaults to
`steps_per_epoch` with epoch-tagged naming when `save_every_n_steps` is unset;
the loop body emits an intermediate checkpoint exactly when an optimizer step
fires, the post-increment `global_step` is a multiple of the cadence, and the
current epoch is not the final one; and the trace of `train` always ends with
the unconditional final full-weights checkpoint. -/
theorem claim_C3_checkpoint_trigger :
    (∀ sp : Nat, resolveSaveCadence none sp = (sp, CkptTag.epoch)) ∧
    (∀ (A : Nat) (kdRatio : ℚ) (se le te sp ce idx : Nat) (b : KDMicrobatch)
        (s : KDState),
      ((kdBody A kdRatio se le te sp ce idx b s).2.any KDEvent.isInterCkpt = true ↔
        ((idx + 1) % A = 0 ∧ (s.globalStep + 1) % se = 0 ∧ ce ≠ te - 1))) ∧
    (∀ (A : Nat) (kdRatio : ℚ) (se le te sp : Nat) (ms : Option Nat)
        (data : Nat → List KDMicrobatch) (s0 : KDState),
      s0.epochsRun < te →
      ((kdTrain A kdRatio se le te sp ms data s0).2.getLast?.map
          KDEvent.isFinalCkpt) = some true) := by
  refine ⟨fun sp => rfl, ?_, ?_⟩
  · intro A kdRatio se le te sp ce idx b s
    by_cases h1 : (idx + 1) % A = 0
    · by_cases hc : (s.globalStep + 1) % se = 0 ∧ ce ≠ te - 1 <;>
        simp [kdBody, h1, hc, KDEvent.isInterCkpt]
    · simp [kdBody, h1, KDEvent.isInterCkpt]
  · intro A kdRatio se le te sp ms data s0 _h
    simp [kdTrain, KDEvent.isFinalCkpt]

/-- C3 witness: a one-epoch, one-step run whose trace ends in the final
checkpoint, with the resumed epoch count below the epoch total. -/
theorem claim_C3_witness :
    kdZeroState.epochsRun < 2 ∧
    ((kdTrain 1 (1 / 2) 1 1 2 1 none (fun _ => [kdMB1])
        kdZeroState).2.getLast?.map KDEvent.isFinalCkpt) = some true :=
  ⟨by decide,
   claim_C3_checkpoint_trigger.2.2 1 (1 / 2) 1 1 2 1 none (fun _ => [kdMB1])
     kdZeroState (by decide)⟩

/-- C4.  Over one full accumulation window of `A` microbatches starting from
reset accumulators, the KD loop performs exactly one optimizer step whose
logged class/kd losses are the token-weighted sums divided by the total
non-ignored token count, whose gradient is rescaled by exactly one over that
same token count, and after which the running sums, token count and gradient
buffer are all reset to zero. -/
theorem claim_C4_accumulation_window (A : Nat) (kdRatio : ℚ)
    (se le te sp ce idx : Nat) (s0 : KDState) (w : List KDMicrobatch)
    (hA : 0 < A) (hw : w.length = A) (hidx : A ∣ idx)
    (hrc : s0.runningClassLoss = 0) (hrk : s0.runningKdLoss = 0)
    (hnt : s0.numTokens = 0) (hg : s0.grads = 0)
    (htok : 0 < kdSumTokens w) :
    kdStepLogs (kdEpoch A kdRatio se le te sp none ce idx s0 w).2 =
      [(kdSumGrads w * (1 / (kdSumTokens w : ℚ)),
        kdWeightedClass w / (kdSumTokens w : ℚ),
        kdWeightedKd w / (kdSumTokens w : ℚ))] ∧
    (kdEpoch A kdRatio se le te sp none ce idx s0 w).1.runningClassLoss = 0 ∧
    (kdEpoch A kdRatio se le te sp none ce idx s0 w).1.runningKdLoss = 0 ∧
    (kdEpoch A kdRatio se le te sp none ce idx s0 w).1.numTokens = 0 ∧
    (kdEpoch A kdRatio se le te sp none ce idx s0 w).1.grads = 0 := by
  obtain ⟨h1, h2⟩ := kdEpoch_window A kdRatio se le te sp ce idx s0 w hA hw hidx
  rw [h1, h2]
  simp [hrc, hrk, hnt, hg]

/-- C4 witness: a window of two concrete microbatches with token counts 3 and
1; the logged class loss is `(2*3 + 10*1)/4 = 4`, the logged kd loss
`(4*3 + 0*1)/4 = 3`, and the applied gradient `(6 + 2)/4 = 2`. -/
theorem claim_C4_witness :
    0 < 2 ∧ ([kdMB1, kdMB2] : List KDMicrobatch).length = 2 ∧ 2 ∣ 0 ∧
    kdZeroState.runningClassLoss = 0 ∧ kdZeroState.runningKdLoss = 0 ∧
    kdZeroState.numTokens = 0 ∧ kdZeroState.grads = 0 ∧
    0 < kdSumTokens [kdMB1, kdMB2] ∧
    (kdStepLogs (kdEpoch 2 (1 / 2) 4 1 3 4 none 0 0 kdZeroState
        [kdMB1, kdMB2]).2 =
      [(kdSumGrads [kdMB1, kdMB2] * (1 / (kdSumTokens [kdMB1, kdMB2] : ℚ)),
        kdWeightedClass [kdMB1, kdMB2] / (kdSumTokens [kdMB1, kdMB2] : ℚ),
        kdWeightedKd [kdMB1, kdMB2] / (kdSumTokens [kdMB1, kdMB2] : ℚ))] ∧
     (kdEpoch 2 (1 / 2) 4 1 3 4 none 0 0 kdZeroState
        [kdMB1, kdMB2]).1.runningClassLoss = 0 ∧
     (kdEpoch 2 (1 / 2) 4 1 3 4 none 0 0 kdZeroState
        [kdMB1, kdMB2]).1.runningKdLoss = 0 ∧
     (kdEpoch 2 (1 / 2) 4 1 3 4 none 0 0 kdZeroState
        [kdMB1, kdMB2]).1.numTokens = 0 ∧
     (kdEpoch 2 (1 / 2) 4 1 3 4 none 0 0 kdZeroState
        [kdMB1, kdMB2]).1.grads = 0) :=
  ⟨by decide, rfl, by decide, rfl, rfl, rfl, rfl, by decide,
   claim_C4_accumulation_window 2 (1 / 2) 4 1 3 4 0 0 kdZeroState
     [kdMB1, kdMB2] (by decide) rfl (by decide) rfl rfl rfl rfl (by decide)⟩

/-- Unfolding equation of the KD epoch loop on a cons cell with an arbitrary
step cap. -/
theorem kdEpoch_cons_eq (A : Nat) (kdRatio : ℚ) (se le te sp ce idx : Nat)
    (ms : Option Nat) (s : KDState) (b : KDMicrobatch) (bs : List KDMicrobatch) :
    kdEpoch A kdRatio se le te sp ms ce idx s (b :: bs) =
      if kdShouldBreak A ms idx then kdBody A kdRatio se le te sp ce idx b s
      else
        ((kdEpoch A kdRatio se le te sp ms ce (idx + 1)
            (kdBody A kdRatio se le te sp ce idx b s).1 bs).1,
         (kdBody A kdRatio se le te sp ce idx b s).2 ++
          (kdEpoch A kdRatio se le te sp ms ce (idx + 1)
            (kdBody A kdRatio se le te sp ce idx b s).1 bs).2) := by
  by_cases h : kdShouldBreak A ms idx <;> simp [kdEpoch, h]

/-- One KD loop body processes exactly one microbatch and performs an
optimizer step exactly at a window boundary. -/
theorem kdBody_counts (A : Nat) (kdRatio : ℚ) (se le te sp ce idx : Nat)
    (b : KDMicrobatch) (s : KDState) :
    ((kdBody A kdRatio se le te sp ce idx b s).2.countP KDEvent.isMicro = 1) ∧
    ((kdBody A kdRatio se le te sp ce idx b s).2.countP KDEvent.isOptStep =
      if (idx + 1) % A = 0 then 1 else 0) := by
  by_cases h1 : (idx + 1) % A = 0
  · by_cases hc : (s.globalStep + 1) % se = 0 ∧ ce ≠ te - 1 <;>
      simp [kdBody, h1, hc, List.countP_cons, List.countP_append,
        KDEvent.isMicro, KDEvent.isOptStep]
  · simp [kdBody, h1, List.countP_cons, KDEvent.isMicro, KDEvent.isOptStep]

/-- Counting lemma for a capped KD epoch: starting strictly inside the capped
range with enough data, the loop processes exactly `A * M - idx` further
microbatches and performs exactly `M - idx / A` further optimizer steps before
the early exit fires. -/
theorem kdEpoch_counts (A M : Nat) (kdRatio : ℚ) (se le te sp ce : Nat)
    (hA : 0 < A) :
    ∀ (bs : List KDMicrobatch) (idx : Nat) (s : KDState),
      idx < A * M → A * M ≤ idx + bs.length →
      ((kdEpoch A kdRatio se le te sp (some M) ce idx s bs).2.countP
          KDEvent.isMicro = A * M - idx) ∧
      ((kdEpoch A kdRatio se le te sp (some M) ce idx s bs).2.countP
          KDEvent.isOptStep = M - idx / A) := by
  intro bs
  induction bs with
  | nil =>
    intro idx s h1 h2
    simp at h2
    omega
  | cons b bs ih =>
    intro idx s h1 h2
    have hsucc : (idx + 1) / A = idx / A + if A ∣ idx + 1 then 1 else 0 :=
      Nat.succ_div idx A
    have hle : idx + 1 ≤ A * M := h1
    rw [kdEpoch_cons_eq]
    by_cases hbr : kdShouldBreak A (some M) idx
    · have hdiv : (idx + 1) / A = M := by
        simpa [kdShouldBreak] using hbr
      have hge : A * M ≤ idx + 1 := by
        have h' := (Nat.le_div_iff_mul_le hA).mp (le_of_eq hdiv.symm)
        rwa [Nat.mul_comm] at h'
      have heq : idx + 1 = A * M := by omega
      have hdvd : A ∣ idx + 1 := ⟨M, heq⟩
      have hmod : (idx + 1) % A = 0 := Nat.mod_eq_zero_of_dvd hdvd
      rw [if_pos hbr]
      obtain ⟨hmicro, hopt⟩ := kdBody_counts A kdRatio se le te sp ce idx b s
      rw [hmicro, hopt, if_pos hmod]
      constructor
      · omega
      · rw [if_pos hdvd] at hsucc
        omega
    · have hdiv : (idx + 1) / A ≠ M := by
        simpa [kdShouldBreak] using hbr
      have hlt : idx + 1 < A * M := by
        rcases Nat.lt_or_ge (idx + 1) (A * M) with h | h
        · exact h
        · exfalso
          have heq : idx + 1 = A * M := by omega
          apply hdiv
          rw [heq, Nat.mul_div_cancel_left M hA]
      have hrest := ih (idx + 1) (kdBody A kdRatio se le te sp ce idx b s).1
        hlt (by simp at h2 ⊢; omega)
      rw [if_neg hbr]
      obtain ⟨hmicro, hopt⟩ := kdBody_counts A kdRatio se le te sp ce idx b s
      have hdivle : (idx + 1) / A ≤ M := by
        have h' : (idx + 1) / A ≤ A * M / A :=
          Nat.div_le_div_right (le_of_lt hlt)
        rwa [Nat.mul_div_cancel_left M hA] at h'
      simp only [List.countP_append, hmicro, hopt, hrest.1, hrest.2]
      constructor
      · omega
      · by_cases hdvd : A ∣ idx + 1
        · have hm : (idx + 1) % A = 0 := Nat.mod_eq_zero_of_dvd hdvd
          rw [if_pos hm, if_pos hdvd] at *
          omega
        · have hm : (idx + 1) % A ≠ 0 := fun hz =>
            hdvd (Nat.dvd_of_mod_eq_zero hz)
          rw [if_neg hm, if_neg hdvd] at *
          omega

/-- Unfolding equation of the DPO epoch loop on the empty list. -/
theorem dpoEpoch_nil (A : Nat) (se le te ce idx : Nat) (ms : Option Nat)
    (s : DPOState) :
    dpoEpoch A se le te ms ce idx s [] = (s, []) := rfl

/-- Unfolding equation of the DPO epoch loop on a cons cell with an arbitrary
step cap: the break test runs before the body. -/
theorem dpoEpoch_cons_eq (A : Nat) (se le te ce idx : Nat) (ms : Option Nat)
    (s : DPOState) (b : DPOMicrobatch) (bs : List DPOMicrobatch) :
    dpoEpoch A se le te ms ce idx s (b :: bs) =
      if dpoShouldBreak A ms idx then (s, [])
      else
        ((dpoEpoch A se le te ms ce (idx + 1)
            (dpoBody A se le te ce idx b s).1 bs).1,
         (dpoBody A se le te ce idx b s).2 ++
          (dpoEpoch A se le te ms ce (idx + 1)
            (dpoBody A se le te ce idx b s).1 bs).2) := by
  by_cases h : dpoShouldBreak A ms idx <;> simp [dpoEpoch, h]

/-- One DPO loop body processes exactly one microbatch and performs an
optimizer step exactly at a window boundary. -/
theorem dpoBody_counts (A : Nat) (se le te ce idx : Nat)
    (b : DPOMicrobatch) (s : DPOState) :
    ((dpoBody A se le te ce idx b s).2.countP DPOEvent.isMicro = 1) ∧
    ((dpoBody A se le te ce idx b s).2.countP DPOEvent.isOptStep =
      if (idx + 1) % A = 0 then 1 else 0) := by
  by_cases h1 : (idx + 1) % A = 0
  · by_cases hc : (s.globalStep + 1) % se = 0 ∧ ce ≠ te - 1 <;>
      simp [dpoBody, h1, hc, List.countP_cons, List.countP_append,
        DPOEvent.isMicro, DPOEvent.isOptStep]
  · simp [dpoBody, h1, List.countP_cons, DPOEvent.isMicro, DPOEvent.isOptStep]

/-- Counting lemma for a capped DPO epoch: from an index inside or at the end
of the capped range with enough data, the loop processes exactly
`A * M - idx` further microbatches and performs exactly `M - idx / A` further
optimizer steps before the early exit fires. -/
theorem dpoEpoch_counts (A M : Nat) (se le te ce : Nat) (hA : 0 < A) :
    ∀ (bs : List DPOMicrobatch) (idx : Nat) (s : DPOState),
      idx ≤ A * M → A * M ≤ idx + bs.length →
      ((dpoEpoch A se le te (some M) ce idx s bs).2.countP
          DPOEvent.isMicro = A * M - idx) ∧
      ((dpoEpoch A se le te (some M) ce idx s bs).2.countP
          DPOEvent.isOptStep = M - idx / A) := by
  intro bs
  induction bs with
  | nil =>
    intro idx s h1 h2
    simp at h2
    have heq : idx = A * M := by omega
    subst heq
    rw [dpoEpoch_nil]
    have hc : A * M / A = M := Nat.mul_div_cancel_left M hA
    refine ⟨by simp, by simp [hc]⟩
  | cons b bs ih =>
    intro idx s h1 h2
    have hsucc : (idx + 1) / A = idx / A + if A ∣ idx + 1 then 1 else 0 :=
      Nat.succ_div idx A
    rw [dpoEpoch_cons_eq]
    by_cases hbr : dpoShouldBreak A (some M) idx
    · have hdiv : idx / A = M := by
        simpa [dpoShouldBreak] using hbr
      have hge : A * M ≤ idx := by
        have h' := (Nat.le_div_iff_mul_le hA).mp (le_of_eq hdiv.symm)
        rwa [Nat.mul_comm] at h'
      have heq : idx = A * M := by omega
      rw [if_pos hbr]
      simp [hdiv]
      omega
    · have hdiv : idx / A ≠ M := by
        simpa [dpoShouldBreak] using hbr
      have hlt : idx < A * M := by
        rcases Nat.lt_or_ge idx (A * M) with h | h
        · exact h
        · exfalso
          have heq : idx = A * M := by omega
          apply hdiv
          rw [heq, Nat.mul_div_cancel_left M hA]
      have hrest := ih (idx + 1) (dpoBody A se le te ce idx b s).1
        hlt (by simp at h2 ⊢; omega)
      rw [if_neg hbr]
      obtain ⟨hmicro, hopt⟩ := dpoBody_counts A se le te ce idx b s
      have hdivle : (idx + 1) / A ≤ M := by
        have h' : (idx + 1) / A ≤ A * M / A :=
          Nat.div_le_div_right (Nat.succ_le_of_lt hlt)
        rwa [Nat.mul_div_cancel_left M hA] at h'
      simp only [List.countP_append, hmicro, hopt, hrest.1, hrest.2]
      constructor
      · omega
      · by_cases hdvd : A ∣ idx + 1
        · have hm : (idx + 1) % A = 0 := Nat.mod_eq_zero_of_dvd hdvd
          rw [if_pos hm, if_pos hdvd] at *
          omega
        · have hm : (idx + 1) % A ≠ 0 := fun hz =>
            hdvd (Nat.dvd_of_mod_eq_zero hz)
          rw [if_neg hm, if_neg hdvd] at *
          omega

/-- C7.  When `max_steps_per_epoch = M` caps the schedule (`M < L / A` for an
epoch of `L` microbatches), the early-exit check makes each capped epoch of
either recipe process exactly `A * M` microbatches and perform exactly `M`
optimizer steps, never more — despite the two recipes placing the break test
differently (`(idx+1) // A == M` after the body in KD, `idx // A == M` before
the body in DPO). -/
theorem claim_C7_capped_epoch (A M : Nat) (kdRatio : ℚ) (se le te sp ce : Nat)
    (bs : List KDMicrobatch) (s : KDState)
    (cs : List DPOMicrobatch) (t : DPOState)
    (hA : 0 < A) (hM : 0 < M) (hbs : M < bs.length / A) (hcs : M < cs.length / A) :
    ((kdEpoch A kdRatio se le te sp (some M) ce 0 s bs).2.countP
        KDEvent.isMicro = A * M ∧
     (kdEpoch A kdRatio se le te sp (some M) ce 0 s bs).2.countP
        KDEvent.isOptStep = M) ∧
    ((dpoEpoch A se le te (some M) ce 0 t cs).2.countP DPOEvent.isMicro = A * M ∧
     (dpoEpoch A se le te (some M) ce 0 t cs).2.countP DPOEvent.isOptStep = M) := by
  have hlen : ∀ L : Nat, M < L / A → A * M ≤ L := by
    intro L hL
    have h1 : (M + 1) * A ≤ L := (Nat.le_div_iff_mul_le hA).mp (by omega)
    calc A * M = M * A := Nat.mul_comm A M
    _ ≤ (M + 1) * A := Nat.mul_le_mul_right A (by omega)
    _ ≤ L := h1
  have hpos : 0 < A * M := Nat.mul_pos hA hM
  obtain ⟨hk1, hk2⟩ := kdEpoch_counts A M kdRatio se le te sp ce hA bs 0 s
    hpos (by simpa using hlen bs.length hbs)
  obtain ⟨hd1, hd2⟩ := dpoEpoch_counts A M se le te ce hA cs 0 t
    (Nat.le_of_lt hpos) (by simpa using hlen cs.length hcs)
  refine ⟨⟨?_, ?_⟩, ?_, ?_⟩
  · simpa using hk1
  · simpa using hk2
  · simpa using hd1
  · simpa using hd2

/-- C7 witness: `A = 2`, `M = 1` on epochs of five microbatches — each recipe
processes exactly two microbatches and one optimizer step. -/
theorem claim_C7_witness :
    0 < 2 ∧ 0 < 1 ∧
    1 < ([kdMB1, kdMB2, kdMB1, kdMB2, kdMB1] : List KDMicrobatch).length / 2 ∧
    1 < ([dpoMB1, dpoMB2, dpoMB1, dpoMB2, dpoMB1] : List DPOMicrobatch).length / 2 ∧
    (((kdEpoch 2 (1 / 2) 4 1 3 4 (some 1) 0 0 kdZeroState
          [kdMB1, kdMB2, kdMB1, kdMB2, kdMB1]).2.countP KDEvent.isMicro = 2 * 1 ∧
      (kdEpoch 2 (1 / 2) 4 1 3 4 (some 1) 0 0 kdZeroState
          [kdMB1, kdMB2, kdMB1, kdMB2, kdMB1]).2.countP KDEvent.isOptStep = 1) ∧
     ((dpoEpoch 2 4 1 3 (some 1) 0 0 dpoZeroState
          [dpoMB1, dpoMB2, dpoMB1, dpoMB2, dpoMB1]).2.countP DPOEvent.isMicro = 2 * 1 ∧
      (dpoEpoch 2 4 1 3 (some 1) 0 0 dpoZeroState
          [dpoMB1, dpoMB2, dpoMB1, dpoMB2, dpoMB1]).2.countP DPOEvent.isOptStep = 1)) :=
  ⟨by decide, by decide, by decide, by decide,
   claim_C7_capped_epoch 2 1 (1 / 2) 4 1 3 4 0
     [kdMB1, kdMB2, kdMB1, kdMB2, kdMB1] kdZeroState
     [dpoMB1, dpoMB2, dpoMB1, dpoMB2, dpoMB1] dpoZeroState
     (by decide) (by decide) (by decide) (by decide)⟩

/-- End-of-epoch state of an uncapped KD epoch started at a window boundary
with reset accumulators: the complete windows have been stepped and reset, and
the accumulators hold exactly the totals of the trailing incomplete window
(the last `length % A` microbatches), while `global_step` advanced by the
number of complete windows. -/
theorem kdEpoch_trailing (A : Nat) (kdRatio : ℚ) (se le te sp ce : Nat)
    (hA : 0 < A) :
    ∀ (n : Nat) (bs : List KDMicrobatch), bs.length ≤ n →
    ∀ (idx : Nat) (s : KDState), A ∣ idx →
      s.runningClassLoss = 0 → s.runningKdLoss = 0 → s.numTokens = 0 →
      s.grads = 0 →
      (kdEpoch A kdRatio se le te sp none ce idx s bs).1 =
        { runningClassLoss := kdWeightedClass (bs.drop (A * (bs.length / A)))
          runningKdLoss := kdWeightedKd (bs.drop (A * (bs.length / A)))
          numTokens := kdSumTokens (bs.drop (A * (bs.length / A)))
          grads := kdSumGrads (bs.drop (A * (bs.length / A)))
          globalStep := s.globalStep + bs.length / A
          epochsRun := s.epochsRun } := by
  intro n
  induction n with
  | zero =>
    intro bs hlen idx s hidx h1 h2 h3 h4
    have hnil : bs = [] := List.length_eq_zero.mp (Nat.le_zero.mp hlen)
    subst hnil
    rw [kdEpoch_nil]
    cases s
    simp_all [kdWeightedClass, kdWeightedKd, kdSumTokens, kdSumGrads]
  | succ n ih =>
    intro bs hlen idx s hidx h1 h2 h3 h4
    by_cases hshort : bs.length < A
    · have hnostep : ∀ j, j < bs.length → (idx + j + 1) % A ≠ 0 := by
        intro j hj
        obtain ⟨q, rfl⟩ := hidx
        have hjA : j + 1 < A := by omega
        have e1 : A * q + j + 1 = j + 1 + A * q := by omega
        rw [e1, Nat.add_mul_mod_self_left, Nat.mod_eq_of_lt hjA]
        omega
      rw [kdEpoch_no_step A kdRatio se le te sp ce bs idx s hnostep]
      have hdiv : bs.length / A = 0 := Nat.div_eq_of_lt hshort
      rw [kdFold_eq]
      simp only [hdiv, Nat.mul_zero, List.drop_zero, Nat.add_zero]
      cases s
      simp_all
    · push_neg at hshort
      have hTlen : (bs.take A).length = A := by
        rw [List.length_take]
        omega
      have hsplit : bs = bs.take A ++ bs.drop A := (List.take_append_drop A bs).symm
      rw [hsplit, kdEpoch_append]
      obtain ⟨hst, _⟩ := kdEpoch_window A kdRatio se le te sp ce idx s (bs.take A)
        hA hTlen hidx
      rw [hst]
      have hrest := ih (bs.drop A) (by simp; omega)
        (idx + (bs.take A).length)
        { runningClassLoss := 0, runningKdLoss := 0, numTokens := 0, grads := 0,
          globalStep := s.globalStep + 1, epochsRun := s.epochsRun }
        (by rw [hTlen]; exact Dvd.dvd.add hidx ⟨1, (Nat.mul_one A).symm⟩)
        rfl rfl rfl rfl
      rw [hrest]
      have hlen2 : (bs.take A ++ bs.drop A).length = A + (bs.drop A).length := by
        rw [List.length_append, hTlen]
      have hdiv2 : (A + (bs.drop A).length) / A = (bs.drop A).length / A + 1 := by
        rw [Nat.add_comm, Nat.add_div_right _ hA]
      have hdrop0 : (bs.take A ++ bs.drop A).drop
          ((bs.take A).length + A * ((bs.drop A).length / A)) =
          (bs.drop A).drop (A * ((bs.drop A).length / A)) :=
        List.drop_append _
      rw [hTlen] at hdrop0
      have hdropeq : (bs.take A ++ bs.drop A).drop
          (A * ((bs.take A ++ bs.drop A).length / A)) =
          (bs.drop A).drop (A * ((bs.drop A).length / A)) := by
        rw [hlen2, hdiv2, Nat.mul_add, Nat.mul_one, Nat.add_comm (A * _) A]
        exact hdrop0
      rw [hdropeq, hlen2, hdiv2]
      simp only [KDState.mk.injEq, true_and, and_true]
      omega

/-- Unfolding equation of the DPO accumulation fold on a cons cell. -/
theorem dpoFold_cons (A : Nat) (s : DPOState) (b : DPOMicrobatch)
    (bs : List DPOMicrobatch) :
    dpoFold A s (b :: bs) = dpoFold A (dpoAccum A s b) bs := rfl

/-- The DPO accumulation fold only touches the three accumulator fields; its
effect is adding the window totals. -/
theorem dpoFold_eq (A : Nat) (w : List DPOMicrobatch) : ∀ s : DPOState,
    dpoFold A s w =
      { runningLoss := s.runningLoss + dpoWindowLoss A w
        numTokens := s.numTokens + dpoSumNumel w
        grads := s.grads + dpoWindowGrads A w
        globalStep := s.globalStep
        epochsRun := s.epochsRun } := by
  induction w with
  | nil =>
    intro s
    simp [dpoFold, dpoWindowLoss, dpoSumNumel, dpoWindowGrads]
  | cons b bs ih =>
    intro s
    rw [dpoFold_cons, ih (dpoAccum A s b)]
    simp only [dpoAccum, dpoWindowLoss, dpoSumNumel, dpoWindowGrads,
      List.map_cons, List.sum_cons, DPOState.mk.injEq]
    exact ⟨by ring, by omega, by ring, trivial, trivial⟩

/-- Unfolding equation of the uncapped DPO epoch loop on a cons cell: the
break test compares against `None` and is always false. -/
theorem dpoEpoch_cons_none (A : Nat) (se le te ce idx : Nat)
    (s : DPOState) (b : DPOMicrobatch) (bs : List DPOMicrobatch) :
    dpoEpoch A se le te none ce idx s (b :: bs) =
      ((dpoEpoch A se le te none ce (idx + 1)
          (dpoBody A se le te ce idx b s).1 bs).1,
       (dpoBody A se le te ce idx b s).2 ++
        (dpoEpoch A se le te none ce (idx + 1)
          (dpoBody A se le te ce idx b s).1 bs).2) := rfl

/-- A run of DPO microbatches none of which closes an accumulation window only
folds the accumulators and emits one micro event each. -/
theorem dpoEpoch_no_step (A : Nat) (se le te ce : Nat)
    (w : List DPOMicrobatch) : ∀ (idx : Nat) (s : DPOState),
    (∀ j, j < w.length → (idx + j + 1) % A ≠ 0) →
    dpoEpoch A se le te none ce idx s w =
      (dpoFold A s w, List.replicate w.length DPOEvent.micro) := by
  induction w with
  | nil => intro idx s _; rfl
  | cons b bs ih =>
    intro idx s h
    have h0 : ¬ ((idx + 1) % A = 0) := by
      have := h 0 (by simp)
      simpa using this
    have hrest : ∀ j, j < bs.length → (idx + 1 + j + 1) % A ≠ 0 := by
      intro j hj
      have hx := h (j + 1) (by simpa using Nat.succ_lt_succ hj)
      have e : idx + 1 + j + 1 = idx + (j + 1) + 1 := by omega
      rw [e]
      exact hx
    have hbody : dpoBody A se le te ce idx b s =
        (dpoAccum A s b, [DPOEvent.micro]) := by
      simp [dpoBody, h0]
    rw [dpoEpoch_cons_none, hbody, ih (idx + 1) (dpoAccum A s b) hrest]
    simp [dpoFold_cons, List.replicate_succ]

/-- Splitting an uncapped DPO epoch run over an appended list. -/
theorem dpoEpoch_append (A : Nat) (se le te ce : Nat)
    (xs ys : List DPOMicrobatch) : ∀ (idx : Nat) (s : DPOState),
    dpoEpoch A se le te none ce idx s (xs ++ ys) =
      ((dpoEpoch A se le te none ce (idx + xs.length)
          (dpoEpoch A se le te none ce idx s xs).1 ys).1,
       (dpoEpoch A se le te none ce idx s xs).2 ++
        (dpoEpoch A se le te none ce (idx + xs.length)
          (dpoEpoch A se le te none ce idx s xs).1 ys).2) := by
  induction xs with
  | nil => intro idx s; simp [dpoEpoch]
  | cons b bs ih =>
    intro idx s
    rw [List.cons_append, dpoEpoch_cons_none, dpoEpoch_cons_none, ih (idx + 1)]
    simp only [List.length_cons, List.append_assoc]
    have e : idx + 1 + bs.length = idx + (bs.length + 1) := by omega
    rw [e]

/-- Step logs distribute over trace concatenation. -/
theorem dpoStepLogs_append (l1 l2 : List DPOEvent) :
    dpoStepLogs (l1 ++ l2) = dpoStepLogs l1 ++ dpoStepLogs l2 := by
  simp [dpoStepLogs]

/-- Micro events carry no step log. -/
theorem dpoStepLogs_replicate_micro (n : Nat) :
    dpoStepLogs (List.replicate n DPOEvent.micro) = [] := by
  induction n with
  | zero => rfl
  | succ n ih =>
    rw [List.replicate_succ]
    simpa [dpoStepLogs, List.filterMap_cons, DPOEvent.stepData] using ih

/-- Window-total decomposition over appends. -/
theorem dpoSumNumel_append (xs ys : List DPOMicrobatch) :
    dpoSumNumel (xs ++ ys) = dpoSumNumel xs + dpoSumNumel ys := by
  simp [dpoSumNumel]

/-- Window-total decomposition over appends. -/
theorem dpoWindowLoss_append (A : Nat) (xs ys : List DPOMicrobatch) :
    dpoWindowLoss A (xs ++ ys) = dpoWindowLoss A xs + dpoWindowLoss A ys := by
  simp [dpoWindowLoss]

/-- Window-total decomposition over appends. -/
theorem dpoWindowGrads_append (A : Nat) (xs ys : List DPOMicrobatch) :
    dpoWindowGrads A (xs ++ ys) = dpoWindowGrads A xs + dpoWindowGrads A ys := by
  simp [dpoWindowGrads]

/-- A full DPO accumulation window starting at a window boundary performs
exactly one optimizer step: the final state has all accumulators reset and the
step count bumped, and the single step log applies the accumulated
(pre-divided) gradients and logs the accumulated running loss. -/
theorem dpoEpoch_window (A : Nat) (se le te ce idx : Nat)
    (s : DPOState) (w : List DPOMicrobatch)
    (hA : 0 < A) (hw : w.length = A) (hidx : A ∣ idx) :
    (dpoEpoch A se le te none ce idx s w).1 =
      { runningLoss := 0, numTokens := 0, grads := 0,
        globalStep := s.globalStep + 1, epochsRun := s.epochsRun } ∧
    dpoStepLogs (dpoEpoch A se le te none ce idx s w).2 =
      [(s.grads + dpoWindowGrads A w, s.runningLoss + dpoWindowLoss A w)] := by
  have hne : w ≠ [] := by
    intro e
    rw [e] at hw
    simp at hw
    omega
  obtain ⟨ys, b, hw', hys⟩ : ∃ ys b, w = ys ++ [b] ∧ ys.length = A - 1 := by
    refine ⟨w.dropLast, w.getLast hne, (List.dropLast_append_getLast hne).symm, ?_⟩
    simp [hw]
  subst hw'
  have hnostep : ∀ j, j < ys.length → (idx + j + 1) % A ≠ 0 := by
    intro j hj
    obtain ⟨q, rfl⟩ := hidx
    have hjA : j + 1 < A := by omega
    have e1 : A * q + j + 1 = j + 1 + A * q := by omega
    rw [e1, Nat.add_mul_mod_self_left, Nat.mod_eq_of_lt hjA]
    omega
  have hstep : (idx + ys.length + 1) % A = 0 := by
    obtain ⟨q, rfl⟩ := hidx
    have e1 : A * q + ys.length + 1 = A * (q + 1) := by
      rw [Nat.mul_add, Nat.mul_one]
      omega
    rw [e1]
    exact Nat.mul_mod_right A (q + 1)
  rw [dpoEpoch_append, dpoEpoch_no_step A se le te ce ys idx s hnostep]
  simp only [dpoEpoch_cons_none, dpoEpoch_nil]
  rw [dpoFold_eq A ys s]
  simp only [dpoBody, dpoAccum, hstep, if_pos, dpoStepLogs_append,
    dpoStepLogs_replicate_micro, dpoSumNumel_append, dpoWindowLoss_append,
    dpoWindowGrads_append, dpoSumNumel, dpoWindowLoss, dpoWindowGrads,
    List.map_cons, List.sum_cons, List.map_nil, List.sum_nil]
  constructor
  · simp
  · by_cases hc : (s.globalStep + 1) % se = 0 ∧ ce ≠ te - 1 <;>
      · simp [hc, dpoStepLogs, List.filterMap_cons, DPOEvent.stepData]
        constructor <;> ring

/-- End-of-epoch state of an uncapped DPO epoch started at a window boundary
with reset accumulators: the accumulators hold exactly the totals of the
trailing incomplete window while `global_step` advanced by the number of
complete windows. -/
theorem dpoEpoch_trailing (A : Nat) (se le te ce : Nat) (hA : 0 < A) :
    ∀ (n : Nat) (bs : List DPOMicrobatch), bs.length ≤ n →
    ∀ (idx : Nat) (s : DPOState), A ∣ idx →
      s.runningLoss = 0 → s.numTokens = 0 → s.grads = 0 →
      (dpoEpoch A se le te none ce idx s bs).1 =
        { runningLoss := dpoWindowLoss A (bs.drop (A * (bs.length / A)))
          numTokens := dpoSumNumel (bs.drop (A * (bs.length / A)))
          grads := dpoWindowGrads A (bs.drop (A * (bs.length / A)))
          globalStep := s.globalStep + bs.length / A
          epochsRun := s.epochsRun } := by
  intro n
  induction n with
  | zero =>
    intro bs hlen idx s hidx h1 h2 h3
    have hnil : bs = [] := List.length_eq_zero.mp (Nat.le_zero.mp hlen)
    subst hnil
    rw [dpoEpoch_nil]
    cases s
    simp_all [dpoWindowLoss, dpoSumNumel, dpoWindowGrads]
  | succ n ih =>
    intro bs hlen idx s hidx h1 h2 h3
    by_cases hshort : bs.length < A
    · have hnostep : ∀ j, j < bs.length → (idx + j + 1) % A ≠ 0 := by
        intro j hj
        obtain ⟨q, rfl⟩ := hidx
        have hjA : j + 1 < A := by omega
        have e1 : A * q + j + 1 = j + 1 + A * q := by omega
        rw [e1, Nat.add_mul_mod_self_left, Nat.mod_eq_of_lt hjA]
        omega
      rw [dpoEpoch_no_step A se le te ce bs idx s hnostep]
      have hdiv : bs.length / A = 0 := Nat.div_eq_of_lt hshort
      rw [dpoFold_eq]
      simp only [hdiv, Nat.mul_zero, List.drop_zero, Nat.add_zero]
      cases s
      simp_all
    · push_neg at hshort
      have hTlen : (bs.take A).length = A := by
        rw [List.length_take]
        omega
      have hsplit : bs = bs.take A ++ bs.drop A := (List.take_append_drop A bs).symm
      rw [hsplit, dpoEpoch_append]
      obtain ⟨hst, _⟩ := dpoEpoch_window A se le te ce idx s (bs.take A)
        hA hTlen hidx
      rw [hst]
      have hrest := ih (bs.drop A) (by simp; omega)
        (idx + (bs.take A).length)
        { runningLoss := 0, numTokens := 0, grads := 0,
          globalStep := s.globalStep + 1, epochsRun := s.epochsRun }
        (by rw [hTlen]; exact Dvd.dvd.add hidx ⟨1, (Nat.mul_one A).symm⟩)
        rfl rfl rfl
      rw [hrest]
      have hlen2 : (bs.take A ++ bs.drop A).length = A + (bs.drop A).length := by
        rw [List.length_append, hTlen]
      have hdiv2 : (A + (bs.drop A).length) / A = (bs.drop A).length / A + 1 := by
        rw [Nat.add_comm, Nat.add_div_right _ hA]
      have hdrop0 : (bs.take A ++ bs.drop A).drop
          ((bs.take A).length + A * ((bs.drop A).length / A)) =
          (bs.drop A).drop (A * ((bs.drop A).length / A)) :=
        List.drop_append _
      rw [hTlen] at hdrop0
      have hdropeq : (bs.take A ++ bs.drop A).drop
          (A * ((bs.take A ++ bs.drop A).length / A)) =
          (bs.drop A).drop (A * ((bs.drop A).length / A)) := by
        rw [hlen2, hdiv2, Nat.mul_add, Nat.mul_one, Nat.add_comm (A * _) A]
        exact hdrop0
      rw [hdropeq, hlen2, hdiv2]
      simp only [DPOState.mk.injEq, true_and, and_true]
      omega

/-- C8.  In both recipes, when an epoch's microbatch count is not a multiple
of the accumulation factor, the final incomplete window's running-loss sums,
token counts and gradients are neither applied by an optimizer step (the step
count only advances by the number of complete windows) nor reset at the epoch
boundary (the epoch transition only bumps `epochs_run`), and they flow into
the first optimizer step of the next epoch, whose logged and applied
quantities include the leftover totals. -/
theorem claim_C8_leftover_carryover (A : Nat) (kdRatio : ℚ)
    (se le te sp e1 e2 : Nat)
    (data : Nat → List KDMicrobatch) (s0 s1 : KDState)
    (ddata : Nat → List DPOMicrobatch) (t0 t1 : DPOState)
    (hA : 0 < A)
    (hmod : (data e1).length % A ≠ 0)
    (hs0 : s0.runningClassLoss = 0 ∧ s0.runningKdLoss = 0 ∧
      s0.numTokens = 0 ∧ s0.grads = 0)
    (hw : (data e2).length = A)
    (hs1 : s1 = (kdEpoch A kdRatio se le te sp none e1 0 s0 (data e1)).1)
    (hmodD : (ddata e1).length % A ≠ 0)
    (ht0 : t0.runningLoss = 0 ∧ t0.numTokens = 0 ∧ t0.grads = 0)
    (hwD : (ddata e2).length = A)
    (ht1 : t1 = (dpoEpoch A se le te none e1 0 t0 (ddata e1)).1) :
    (s1 =
      { runningClassLoss :=
          kdWeightedClass ((data e1).drop (A * ((data e1).length / A)))
        runningKdLoss :=
          kdWeightedKd ((data e1).drop (A * ((data e1).length / A)))
        numTokens := kdSumTokens ((data e1).drop (A * ((data e1).length / A)))
        grads := kdSumGrads ((data e1).drop (A * ((data e1).length / A)))
        globalStep := s0.globalStep + (data e1).length / A
        epochsRun := s0.epochsRun } ∧
     (data e1).drop (A * ((data e1).length / A)) ≠ [] ∧
     (kdEpochs A kdRatio se le te sp none data [e1, e2] s0).2 =
       (kdEpoch A kdRatio se le te sp none e1 0 s0 (data e1)).2 ++
        (kdEpoch A kdRatio se le te sp none e2 0
          { s1 with epochsRun := s1.epochsRun + 1 } (data e2)).2 ∧
     kdStepLogs (kdEpoch A kdRatio se le te sp none e2 0
        { s1 with epochsRun := s1.epochsRun + 1 } (data e2)).2 =
       [((s1.grads + kdSumGrads (data e2)) *
           (1 / ((s1.numTokens + kdSumTokens (data e2) : Nat) : ℚ)),
         (s1.runningClassLoss + kdWeightedClass (data e2)) /
           ((s1.numTokens + kdSumTokens (data e2) : Nat) : ℚ),
         (s1.runningKdLoss + kdWeightedKd (data e2)) /
           ((s1.numTokens + kdSumTokens (data e2) : Nat) : ℚ))]) ∧
    (t1 =
      { runningLoss :=
          dpoWindowLoss A ((ddata e1).drop (A * ((ddata e1).length / A)))
        numTokens := dpoSumNumel ((ddata e1).drop (A * ((ddata e1).length / A)))
        grads := dpoWindowGrads A ((ddata e1).drop (A * ((ddata e1).length / A)))
        globalStep := t0.globalStep + (ddata e1).length / A
        epochsRun := t0.epochsRun } ∧
     (ddata e1).drop (A * ((ddata e1).length / A)) ≠ [] ∧
     (dpoEpochs A se le te none ddata [e1, e2] t0).2 =
       (dpoEpoch A se le te none e1 0 t0 (ddata e1)).2 ++
        (dpoEpoch A se le te none e2 0
          { t1 with epochsRun := t1.epochsRun + 1 } (ddata e2)).2 ∧
     dpoStepLogs (dpoEpoch A se le te none e2 0
        { t1 with epochsRun := t1.epochsRun + 1 } (ddata e2)).2 =
       [(t1.grads + dpoWindowGrads A (ddata e2),
         t1.runningLoss + dpoWindowLoss A (ddata e2))]) := by
  obtain ⟨hc1, hc2, hc3, hc4⟩ := hs0
  obtain ⟨hd1, hd2, hd3⟩ := ht0
  have hdropne : ∀ (L : Nat), L % A ≠ 0 → L - A * (L / A) = L % A := by
    intro L _
    have := Nat.mod_add_div L A
    omega
  subst hs1
  subst ht1
  refine ⟨⟨?_, ?_, ?_, ?_⟩, ?_, ?_, ?_, ?_⟩
  · exact kdEpoch_trailing A kdRatio se le te sp e1 hA (data e1).length
      (data e1) le_rfl 0 s0 (dvd_zero A) hc1 hc2 hc3 hc4
  · intro hnil
    have hlen0 := congrArg List.length hnil
    simp only [List.length_drop, List.length_nil] at hlen0
    rw [hdropne (data e1).length hmod] at hlen0
    exact hmod hlen0
  · simp [kdEpochs]
  · have hwin := (kdEpoch_window A kdRatio se le te sp e2 0
      { (kdEpoch A kdRatio se le te sp none e1 0 s0 (data e1)).1 with
        epochsRun :=
          (kdEpoch A kdRatio se le te sp none e1 0 s0 (data e1)).1.epochsRun + 1 }
      (data e2) hA hw (dvd_zero A)).2
    simpa using hwin
  · exact dpoEpoch_trailing A se le te e1 hA (ddata e1).length
      (ddata e1) le_rfl 0 t0 (dvd_zero A) hd1 hd2 hd3
  · intro hnil
    have hlen0 := congrArg List.length hnil
    simp only [List.length_drop, List.length_nil] at hlen0
    rw [hdropne (ddata e1).length hmodD] at hlen0
    exact hmodD hlen0
  · simp [dpoEpochs]
  · have hwin := (dpoEpoch_window A se le te e2 0
      { (dpoEpoch A se le te none e1 0 t0 (ddata e1)).1 with
        epochsRun :=
          (dpoEpoch A se le te none e1 0 t0 (ddata e1)).1.epochsRun + 1 }
      (ddata e2) hA hwD (dvd_zero A)).2
    simpa using hwin

/-- C8 witness: `A = 2` with a three-microbatch first epoch (one leftover) and
a two-microbatch second epoch, in both recipes. -/
theorem claim_C8_witness :
    0 < 2 ∧ (kdDataEx 0).length % 2 ≠ 0 ∧
    (kdZeroState.runningClassLoss = 0 ∧ kdZeroState.runningKdLoss = 0 ∧
      kdZeroState.numTokens = 0 ∧ kdZeroState.grads = 0) ∧
    (kdDataEx 1).length = 2 ∧
    kdS1Ex = (kdEpoch 2 (1 / 2) 4 1 3 4 none 0 0 kdZeroState (kdDataEx 0)).1 ∧
    (dpoDataEx 0).length % 2 ≠ 0 ∧
    (dpoZeroState.runningLoss = 0 ∧ dpoZeroState.numTokens = 0 ∧
      dpoZeroState.grads = 0) ∧
    (dpoDataEx 1).length = 2 ∧
    dpoT1Ex = (dpoEpoch 2 4 1 3 none 0 0 dpoZeroState (dpoDataEx 0)).1 ∧
    ((kdS1Ex =
      { runningClassLoss :=
          kdWeightedClass ((kdDataEx 0).drop (2 * ((kdDataEx 0).length / 2)))
        runningKdLoss :=
          kdWeightedKd ((kdDataEx 0).drop (2 * ((kdDataEx 0).length / 2)))
        numTokens := kdSumTokens ((kdDataEx 0).drop (2 * ((kdDataEx 0).length / 2)))
        grads := kdSumGrads ((kdDataEx 0).drop (2 * ((kdDataEx 0).length / 2)))
        globalStep := kdZeroState.globalStep + (kdDataEx 0).length / 2
        epochsRun := kdZeroState.epochsRun } ∧
     (kdDataEx 0).drop (2 * ((kdDataEx 0).length / 2)) ≠ [] ∧
     (kdEpochs 2 (1 / 2) 4 1 3 4 none kdDataEx [0, 1] kdZeroState).2 =
       (kdEpoch 2 (1 / 2) 4 1 3 4 none 0 0 kdZeroState (kdDataEx 0)).2 ++
        (kdEpoch 2 (1 / 2) 4 1 3 4 none 1 0
          { kdS1Ex with epochsRun := kdS1Ex.epochsRun + 1 } (kdDataEx 1)).2 ∧
     kdStepLogs (kdEpoch 2 (1 / 2) 4 1 3 4 none 1 0
        { kdS1Ex with epochsRun := kdS1Ex.epochsRun + 1 } (kdDataEx 1)).2 =
       [((kdS1Ex.grads + kdSumGrads (kdDataEx 1)) *
           (1 / ((kdS1Ex.numTokens + kdSumTokens (kdDataEx 1) : Nat) : ℚ)),
         (kdS1Ex.runningClassLoss + kdWeightedClass (kdDataEx 1)) /
           ((kdS1Ex.numTokens + kdSumTokens (kdDataEx 1) : Nat) : ℚ),
         (kdS1Ex.runningKdLoss + kdWeightedKd (kdDataEx 1)) /
           ((kdS1Ex.numTokens + kdSumTokens (kdDataEx 1) : Nat) : ℚ))]) ∧
    (dpoT1Ex =
      { runningLoss :=
          dpoWindowLoss 2 ((dpoDataEx 0).drop (2 * ((dpoDataEx 0).length / 2)))
        numTokens := dpoSumNumel ((dpoDataEx 0).drop (2 * ((dpoDataEx 0).length / 2)))
        grads := dpoWindowGrads 2 ((dpoDataEx 0).drop (2 * ((dpoDataEx 0).length / 2)))
        globalStep := dpoZeroState.globalStep + (dpoDataEx 0).length / 2
        epochsRun := dpoZeroState.epochsRun } ∧
     (dpoDataEx 0).drop (2 * ((dpoDataEx 0).length / 2)) ≠ [] ∧
     (dpoEpochs 2 4 1 3 none dpoDataEx [0, 1] dpoZeroState).2 =
       (dpoEpoch 2 4 1 3 none 0 0 dpoZeroState (dpoDataEx 0)).2 ++
        (dpoEpoch 2 4 1 3 none 1 0
          { dpoT1Ex with epochsRun := dpoT1Ex.epochsRun + 1 } (dpoDataEx 1)).2 ∧
     dpoStepLogs (dpoEpoch 2 4 1 3 none 1 0
        { dpoT1Ex with epochsRun := dpoT1Ex.epochsRun + 1 } (dpoDataEx 1)).2 =
       [(dpoT1Ex.grads + dpoWindowGrads 2 (dpoDataEx 1),
         dpoT1Ex.runningLoss + dpoWindowLoss 2 (dpoDataEx 1))])) :=
  by
  have hs1 : kdS1Ex =
      (kdEpoch 2 (1 / 2) 4 1 3 4 none 0 0 kdZeroState (kdDataEx 0)).1 := by
    norm_num [kdS1Ex, kdDataEx, kdEpoch, kdBody, kdAccum, kdShouldBreak,
      kdMB1, kdMB2, kdZeroState]
  have ht1 : dpoT1Ex =
      (dpoEpoch 2 4 1 3 none 0 0 dpoZeroState (dpoDataEx 0)).1 := by
    norm_num [dpoT1Ex, dpoDataEx, dpoEpoch, dpoBody, dpoAccum, dpoShouldBreak,
      dpoMB1, dpoMB2, dpoZeroState]
  exact ⟨by decide, by decide, ⟨rfl, rfl, rfl, rfl⟩, by decide, hs1, by decide,
    ⟨rfl, rfl, rfl⟩, by decide, ht1,
    claim_C8_leftover_carryover 2 (1 / 2) 4 1 3 4 0 1 kdDataEx kdZeroState kdS1Ex
      dpoDataEx dpoZeroState dpoT1Ex (by decide) (by decide) ⟨rfl, rfl, rfl, rfl⟩
      (by decide) hs1 (by decide) ⟨rfl, rfl, rfl⟩ (by decide) ht1⟩

end Torchtune
